import Mathlib

/-!
Verification development for the jules-wrapped collection and statistics
pipeline.  The TypeScript sources (src/collector.ts, the stats calculator,
the token estimator and the design tokens) are shallowly embedded below:
pure functions become Lean functions, the stateful rate-limit module becomes
explicit state passing, fallible parsing becomes `Option`, and JavaScript
numbers are modelled as `ℚ`/`Int`/`Nat` (the values involved are exact in
double precision for all realistic inputs).  Network interaction is modelled
by passing the fetched data (or the stream of page responses) as explicit
arguments.
-/

/- ## Small helpers: JS string trimming, assoc-list maps, JS rounding -/

/-- Whitespace recognized by JavaScript's `String.prototype.trim`
(ASCII whitespace, NBSP and the BOM; the exotic Unicode space separators
are irrelevant to the claims). -/
def isJsWhitespace (c : Char) : Bool :=
  c == ' ' || c == '\t' || c == '\n' || c == '\r' ||
  c == Char.ofNat 11 || c == Char.ofNat 12 || c == Char.ofNat 160 ||
  c == Char.ofNat 0xFEFF

/-- JavaScript `String.prototype.trim`: drop leading and trailing whitespace. -/
def jsTrim (s : String) : String :=
  String.mk (((s.data.dropWhile isJsWhitespace).reverse.dropWhile isJsWhitespace).reverse)

/-- JavaScript `Map` lookup (`map.get(k)`, `undefined` as `none`),
on the insertion-ordered association-list model of a `Map`. -/
def getAssoc [DecidableEq κ] : List (κ × β) → κ → Option β
  | [], _ => none
  | (k', v) :: rest, k => if k' = k then some v else getAssoc rest k

/-- JavaScript `Map.set(k, v)`: overwrite in place when the key exists,
append otherwise (insertion order is preserved, as for a JS `Map`). -/
def setAssoc [DecidableEq κ] : List (κ × β) → κ → β → List (κ × β)
  | [], k, v => [(k, v)]
  | (k', v') :: rest, k, v =>
      if k' = k then (k', v) :: rest else (k', v') :: setAssoc rest k v

/-- The idiom `map.set(k, (map.get(k) || 0) + 1)` used throughout the collector. -/
def bumpCount [DecidableEq κ] (m : List (κ × Nat)) (k : κ) : List (κ × Nat) :=
  setAssoc m k ((getAssoc m k).getD 0 + 1)

/-- Sum of the values of an association-list map (`sum(map.values())`). -/
def sumValues (m : List (κ × Nat)) : Nat :=
  (m.map Prod.snd).sum

/-- JavaScript `Math.round` (round half toward positive infinity). -/
def jsRound (x : ℚ) : Int := ⌊x + 1 / 2⌋

/- ## Token estimator (src/utils/tokens.ts) -/

def GEMINI_CHARS_PER_TOKEN : Nat := 4

def GEMINI_IMAGE_TOKENS : Nat := 258

/-- `estimateGeminiTokensFromText`: 0 for a missing/non-string or
blank-after-trim input, otherwise `max(1, ceil(length / 4))`
(in `Nat`, `ceil (l / 4) = (l + 3) / 4`). -/
def estimateGeminiTokensFromText (text : Option String) : Nat :=
  match text with
  | none => 0
  | some s =>
      if jsTrim s = "" then 0
      else max 1 ((s.length + (GEMINI_CHARS_PER_TOKEN - 1)) / GEMINI_CHARS_PER_TOKEN)

/-- `estimateGeminiTokensFromImage`: a fixed 258-token estimate. -/
def estimateGeminiTokensFromImage : Nat := GEMINI_IMAGE_TOKENS

/- ## Rate-limit adaptation (src/collector.ts, updateRateLimitFromError) -/

def DEFAULT_RATE_LIMIT_PER_MINUTE : Int := 90

/-- The constant `RATE_LIMIT_BUFFER_RATIO = 0.9` of src/collector.ts
(renamed; the value is exact in binary floating point semantics for the
floor computations the claims are about). -/
def RATE_LIMIT_BUFFER : ℚ := 9 / 10

/-- The module-level mutable rate state of src/collector.ts. -/
structure RateLimitState where
  rateLimitPerMinute : Int
  minIntervalMs : Int
deriving DecidableEq, Repr

/-- Initial state: `rateLimitPerMinute = 90`,
`minIntervalMs = Math.ceil(60000 / rateLimitPerMinute)`. -/
def initRateLimitState : RateLimitState :=
  ⟨DEFAULT_RATE_LIMIT_PER_MINUTE, ⌈(60000 : ℚ) / (DEFAULT_RATE_LIMIT_PER_MINUTE : ℚ)⌉⟩

/-- `findQuotaLimitValue`: scan `error.details` (modelled as a list whose
entries carry `metadata.quota_limit_value` parsed to a finite number, or
`none` when absent/non-numeric) and return the first finite value. -/
def findQuotaLimitValue (details : Option (List (Option ℚ))) : Option ℚ :=
  match details with
  | none => none
  | some items => items.findSome? id

/-- `updateRateLimitFromError`: the 429-body is modelled post-JSON-parse as
`none` (empty or unparsable body) or `some details`.  A found quota value
`q` is ignored when falsy (`!quotaLimitValue`, i.e. `q = 0`); otherwise the
rate shrinks to `max 1 ⌊q * 0.9⌋` when that is below the current rate. -/
def updateRateLimitFromError (st : RateLimitState)
    (body : Option (Option (List (Option ℚ)))) : RateLimitState :=
  match body with
  | none => st
  | some payload =>
      match findQuotaLimitValue payload with
      | none => st
      | some q =>
          if q = 0 then st
          else
            let safeLimit : Int := max 1 ⌊q * RATE_LIMIT_BUFFER⌋
            if safeLimit < st.rateLimitPerMinute then
              ⟨safeLimit, ⌈(60000 : ℚ) / (safeLimit : ℚ)⌉⟩
            else st

/- ## Retry backoff (src/collector.ts, getFallbackDelayMs / clampDelay) -/

def BASE_RETRY_DELAY_MS : ℚ := 1000

def MAX_RETRY_DELAY_MS : ℚ := 15000

/-- `clampDelay`: clamp into `[1000, 15000]` then `Math.round`. -/
def clampDelay (delayMs : ℚ) : Int :=
  jsRound (min (max delayMs BASE_RETRY_DELAY_MS) MAX_RETRY_DELAY_MS)

/-- `getFallbackDelayMs`, with the `Math.random()` draw `rand ∈ [0, 1)`
passed explicitly; the jitter is `rand * 0.3 + 0.85`. -/
def getFallbackDelayMs (attempt : Nat) (rand : ℚ) : Int :=
  let base : ℚ := BASE_RETRY_DELAY_MS * 2 ^ attempt
  let jitter : ℚ := rand * (3 / 10) + 17 / 20
  clampDelay (base * jitter)

/- ## Calendar model (src/utils/dates.ts and Date arithmetic) -/

/-- A parsed timestamp, at calendar granularity: year / month / day plus the
millisecond offset within the day.  Chronological comparison of two valid
timestamps is lexicographic comparison of these fields, which we linearize
with `DateTime.key` (months < 13, days < 32, ms < 86400000). -/
structure DateTime where
  y : Nat
  m : Nat
  d : Nat
  ms : Nat
deriving DecidableEq, Repr

/-- Strictly monotone linearization of a valid `DateTime`; chronological
order of `Date` values is `≤` on this key. -/
def DateTime.key (t : DateTime) : Nat :=
  ((t.y * 13 + t.m) * 32 + t.d) * 86400000 + t.ms

/-- `Date` comparison `a <= b` (via `getTime()`). -/
def dtLe (a b : DateTime) : Bool := decide (a.key ≤ b.key)

/-- `Date` comparison `a < b` (via `getTime()`). -/
def dtLt (a b : DateTime) : Bool := decide (a.key < b.key)

/-- A daily-activity map key (the date string `YYYY-MM-DD`), modelled as the
calendar-day triple it denotes. -/
structure DateKey where
  y : Nat
  m : Nat
  d : Nat
deriving DecidableEq, Repr

/-- Modelled from the spec: `formatDateKey` of src/utils/dates.ts (not part
of the provided sources) renders a timestamp as its calendar-day key
`"YYYY-MM-DD"`; in the calendar model it simply forgets the time of day. -/
def formatDateKey (t : DateTime) : DateKey := ⟨t.y, t.m, t.d⟩

/-- Linearization of a date key; string comparison of two well-formed
zero-padded `YYYY-MM-DD` keys agrees with `≤` on this number
(months < 13, days < 32). -/
def DateKey.keyNum (k : DateKey) : Nat := (k.y * 13 + k.m) * 32 + k.d

/-- The string order `activeDates.sort()` uses, on well-formed keys. -/
def keyLE (a b : DateKey) : Bool := decide (a.keyNum ≤ b.keyNum)

def isLeapYear (y : Nat) : Bool :=
  decide ((y % 4 = 0 ∧ y % 100 ≠ 0) ∨ y % 400 = 0)

def daysInMonth (y m : Nat) : Nat :=
  if m = 2 then (if isLeapYear y then 29 else 28)
  else if m = 4 ∨ m = 6 ∨ m = 9 ∨ m = 11 then 30
  else 31

/-- The previous calendar day, i.e. `formatDateKey(new Date(t - 86400000))`
for a day key `t` (UTC date-only timestamps step back exactly one calendar
day). -/
def prevDay (k : DateKey) : DateKey :=
  if 1 < k.d then ⟨k.y, k.m, k.d - 1⟩
  else if 1 < k.m then ⟨k.y, k.m - 1, daysInMonth k.y (k.m - 1)⟩
  else ⟨k.y - 1, 12, 31⟩

/-- Day number of a calendar date (Hinnant's civil-from-days inverse); this
is `new Date("YYYY-MM-DD").getTime() / 86400000`, so the `Math.round`ed
day difference of two keys is the difference of their day numbers. -/
def toDayNumber (k : DateKey) : Int :=
  let y : Int := (k.y : Int) - (if k.m ≤ 2 then 1 else 0)
  let era : Int := (if 0 ≤ y then y else y - 399) / 400
  let yoe : Int := y - era * 400
  let mp : Int := ((k.m : Int) + 9) % 12
  let doy : Int := (153 * mp + 2) / 5 + (k.d : Int) - 1
  let doe : Int := yoe * 365 + yoe / 4 - yoe / 100 + doy
  era * 146097 + doe - 719468

/-- `Math.round((curr.getTime() - prev.getTime()) / 86400000)` for two
date-only keys: exactly the day-number difference. -/
def diffDays (prev curr : DateKey) : Int := toDayNumber curr - toDayNumber prev

/- ## Data model (src/collector.ts interfaces) -/

inductive ActivityKind where
  | agentMessaged
  | userMessaged
  | planGenerated
  | planApproved
  | progressUpdated
  | sessionCompleted
  | sessionFailed
  | unknown
deriving DecidableEq, Repr

structure GitPatch where
  unidiffPatch : Option String
  baseCommitId : Option String
  suggestedCommitMessage : Option String
deriving DecidableEq, Repr

structure ChangeSet where
  source : Option String
  gitPatch : Option GitPatch
deriving DecidableEq, Repr

structure MediaArtifact where
  data : Option String
  mimeType : Option String
deriving DecidableEq, Repr

structure BashOutput where
  command : Option String
  output : Option String
  exitCode : Option Int
deriving DecidableEq, Repr

structure JulesArtifact where
  changeSet : Option ChangeSet
  media : Option MediaArtifact
  bashOutput : Option BashOutput
deriving DecidableEq, Repr

/-- An activity record; each payload field is `some _` exactly when the JSON
field is present (`!== undefined`), and `createTime` carries the result of
`parseTime` (`none` for a missing or unparseable string). -/
structure JulesActivity where
  description : Option String
  createTime : Option DateTime
  agentMessaged : Option (Option String)
  userMessaged : Option (Option String)
  planGenerated : Option Unit
  planApproved : Option (Option String)
  progressUpdated : Option (Option String × Option String)
  sessionCompleted : Option Unit
  sessionFailed : Option (Option String)
  artifacts : Option (List JulesArtifact)
deriving DecidableEq, Repr

structure PullRequest where
  url : Option String
  title : Option String
  description : Option String
deriving DecidableEq, Repr

structure SessionOutput where
  pullRequest : Option PullRequest
deriving DecidableEq, Repr

structure SourceContext where
  source : Option String
deriving DecidableEq, Repr

/-- A session record, with `createTime`/`updateTime` carrying the results of
`parseTime` on the corresponding strings. -/
structure JulesSession where
  name : Option String
  prompt : Option String
  title : Option String
  requirePlanApproval : Option Bool
  automationMode : Option String
  createTime : Option DateTime
  updateTime : Option DateTime
  sourceContext : Option SourceContext
  outputs : Option (List SessionOutput)
deriving DecidableEq, Repr

structure GithubRepo where
  owner : Option String
  repo : Option String
  isPrivate : Option Bool
deriving DecidableEq, Repr

structure JulesSource where
  name : Option String
  githubRepo : Option GithubRepo
deriving DecidableEq, Repr

/- ## Year filtering (src/collector.ts, isInYear / sessionOverlapsYear) -/

/-- `isInYear(date, year)`: false for `null`, else `getFullYear() === year`. -/
def isInYear (date : Option DateTime) (year : Nat) : Bool :=
  match date with
  | none => false
  | some t => decide (t.y = year)

/-- `new Date(year, 0, 1)`: Jan 1 of the year, midnight. -/
def yearStart (year : Nat) : DateTime := ⟨year, 1, 1, 0⟩

/-- `new Date(year, 11, 31, 23, 59, 59, 999)`: the last millisecond of the
year. -/
def yearEnd (year : Nat) : DateTime := ⟨year, 12, 31, 86399999⟩

/-- `sessionOverlapsYear`: requires a parseable creation time; the update
time defaults to the creation time; the `[created, updated]` interval must
overlap the year window. -/
def sessionOverlapsYear (s : JulesSession) (year : Nat) : Bool :=
  match s.createTime with
  | none => false
  | some created =>
      let updated := s.updateTime.getD created
      dtLe created (yearEnd year) && dtLe (yearStart year) updated

/- ## Paginated fetching (src/collector.ts, listAllSessions etc.) -/

/-- One page response: the resource array (`none` models a missing or
non-`Array` items field) and the raw `nextPageToken`. -/
structure PageResponse (α : Type) where
  items : Option (List α)
  nextPageToken : Option String
deriving Repr

/-- The continuation token the loop actually uses:
`response.nextPageToken || undefined` (an empty string counts as absent). -/
def effectiveToken (r : PageResponse α) : Option String :=
  match r.nextPageToken with
  | none => none
  | some t => if t = "" then none else some t

/-- The shared do-while pagination loop, the network modelled as the
sequence of page responses consumed one per request.  Returns the
concatenated items together with the number of requests issued.  (The
source loop always issues at least one request; an empty response stream
corresponds to no reachable behavior and returns `([], 0)`.) -/
def fetchAllPages : List (PageResponse α) → List α × Nat
  | [] => ([], 0)
  | r :: rest =>
      match effectiveToken r with
      | some _ =>
          let next := fetchAllPages rest
          ((r.items.getD []) ++ next.1, next.2 + 1)
      | none => (r.items.getD [], 1)

/-- `listAllSessions` (network abstracted to its page-response stream). -/
def listAllSessions (pages : List (PageResponse JulesSession)) :
    List JulesSession × Nat := fetchAllPages pages

/-- `listAllSources` (network abstracted to its page-response stream). -/
def listAllSources (pages : List (PageResponse JulesSource)) :
    List JulesSource × Nat := fetchAllPages pages

/-- `listAllActivities` (network abstracted to its page-response stream). -/
def listAllActivities (pages : List (PageResponse JulesActivity)) :
    List JulesActivity × Nat := fetchAllPages pages

/- ## Source labels (src/collector.ts, formatSourceLabel etc.) -/

/-- `formatSourceLabel`: `null` for a falsy or blank source, else strip the
well-known prefixes from the trimmed name. -/
def formatSourceLabel (source : Option String) : Option String :=
  match source with
  | none => none
  | some s =>
      if s = "" then none
      else
        let trimmed := jsTrim s
        if trimmed = "" then none
        else if trimmed.startsWith ("sources/github/") then
          some (trimmed.drop (String.length ("sources/github/")))
        else if trimmed.startsWith ("sources/") then
          some (trimmed.drop (String.length ("sources/")))
        else some trimmed

/-- `buildSourceNameMap`: map each source name to `owner/repo` when both are
truthy, else to its formatted label when that is truthy. -/
def buildSourceNameMap (sources : List JulesSource) : List (String × String) :=
  sources.foldl (fun map src =>
    match src.name with
    | none => map
    | some name =>
        if name = "" then map
        else
          match src.githubRepo with
          | some repo =>
              match repo.owner, repo.repo with
              | some owner, some rp =>
                  if owner ≠ "" ∧ rp ≠ "" then
                    setAssoc map name (owner ++ "/" ++ rp)
                  else
                    match formatSourceLabel (some name) with
                    | some fb => if fb = "" then map else setAssoc map name fb
                    | none => map
              | _, _ =>
                  match formatSourceLabel (some name) with
                  | some fb => if fb = "" then map else setAssoc map name fb
                  | none => map
          | none =>
              match formatSourceLabel (some name) with
              | some fb => if fb = "" then map else setAssoc map name fb
              | none => map) []

/-- `resolveSourceLabel`: `null` for a falsy id, else the mapped label or
the formatted fallback. -/
def resolveSourceLabel (sourceId : Option String) (map : List (String × String)) :
    Option String :=
  match sourceId with
  | none => none
  | some sid =>
      if sid = "" then none
      else (getAssoc map sid).orElse (fun _ => formatSourceLabel (some sid))

/- ## Usage summary accumulator (src/collector.ts, collectJulesUsageSummary) -/

structure JulesUsageSummary where
  totalSessions : Nat
  totalActivities : Nat
  totalMessages : Nat
  totalAgentMessages : Nat
  totalUserMessages : Nat
  totalPlansGenerated : Nat
  totalPlansApproved : Nat
  totalProgressUpdates : Nat
  totalSessionCompleted : Nat
  totalSessionFailed : Nat
  totalChangeSets : Nat
  totalBashOutputs : Nat
  totalMedia : Nat
  totalPullRequests : Nat
  totalTokensEstimated : Nat
  requirePlanApprovalCount : Nat
  firstSessionDate : Option DateTime
  dailyActivity : List (DateKey × Nat)
  activityTypeCounts : List (ActivityKind × Nat)
  sourceCounts : List (String × Nat)
  automationModeCounts : List (String × Nat)
deriving Repr

def ACTIVITY_KIND_ORDER : List ActivityKind :=
  [.agentMessaged, .userMessaged, .planGenerated, .planApproved,
   .progressUpdated, .sessionCompleted, .sessionFailed]

/-- `getActivityKind`: the first payload field (in `ACTIVITY_KIND_ORDER`)
that is present, else `unknown`. -/
def getActivityKind (a : JulesActivity) : ActivityKind :=
  if a.agentMessaged.isSome then .agentMessaged
  else if a.userMessaged.isSome then .userMessaged
  else if a.planGenerated.isSome then .planGenerated
  else if a.planApproved.isSome then .planApproved
  else if a.progressUpdated.isSome then .progressUpdated
  else if a.sessionCompleted.isSome then .sessionCompleted
  else if a.sessionFailed.isSome then .sessionFailed
  else .unknown

/-- The artifact loop body of the activity worker (change sets, media,
bash outputs, with their token contributions). -/
def processArtifact (acc : JulesUsageSummary) (art : JulesArtifact) : JulesUsageSummary :=
  let acc :=
    match art.changeSet with
    | some cs =>
        { acc with
          totalChangeSets := acc.totalChangeSets + 1
          totalTokensEstimated := acc.totalTokensEstimated
            + estimateGeminiTokensFromText cs.source
            + estimateGeminiTokensFromText (cs.gitPatch.bind GitPatch.unidiffPatch)
            + estimateGeminiTokensFromText (cs.gitPatch.bind GitPatch.suggestedCommitMessage) }
    | none => acc
  let acc :=
    match art.media with
    | some _ =>
        { acc with
          totalMedia := acc.totalMedia + 1
          totalTokensEstimated := acc.totalTokensEstimated + estimateGeminiTokensFromImage }
    | none => acc
  match art.bashOutput with
  | some b =>
      { acc with
        totalBashOutputs := acc.totalBashOutputs + 1
        totalTokensEstimated := acc.totalTokensEstimated
          + estimateGeminiTokensFromText b.command
          + estimateGeminiTokensFromText b.output }
  | none => acc

/-- The per-kind counter updates of the activity worker. -/
def applyKindCounters (acc : JulesUsageSummary) (a : JulesActivity) : JulesUsageSummary :=
  match getActivityKind a with
  | .agentMessaged =>
      { acc with
        totalMessages := acc.totalMessages + 1
        totalAgentMessages := acc.totalAgentMessages + 1
        totalTokensEstimated := acc.totalTokensEstimated
          + estimateGeminiTokensFromText a.agentMessaged.join }
  | .userMessaged =>
      { acc with
        totalMessages := acc.totalMessages + 1
        totalUserMessages := acc.totalUserMessages + 1
        totalTokensEstimated := acc.totalTokensEstimated
          + estimateGeminiTokensFromText a.userMessaged.join }
  | .planGenerated => { acc with totalPlansGenerated := acc.totalPlansGenerated + 1 }
  | .planApproved => { acc with totalPlansApproved := acc.totalPlansApproved + 1 }
  | .progressUpdated =>
      { acc with
        totalProgressUpdates := acc.totalProgressUpdates + 1
        totalTokensEstimated := acc.totalTokensEstimated
          + estimateGeminiTokensFromText (a.progressUpdated.map Prod.fst).join
          + estimateGeminiTokensFromText (a.progressUpdated.map Prod.snd).join }
  | .sessionCompleted => { acc with totalSessionCompleted := acc.totalSessionCompleted + 1 }
  | .sessionFailed =>
      { acc with
        totalSessionFailed := acc.totalSessionFailed + 1
        totalTokensEstimated := acc.totalTokensEstimated
          + estimateGeminiTokensFromText a.sessionFailed.join }
  | .unknown => acc

/-- The body of the activity loop (lines 240–301 of src/collector.ts):
skip activities outside the requested year, then update the running totals,
histogram, per-kind counters, token estimate, artifacts and source tally.
`srcLabel` is `sessionSource.get(session.name)`. -/
def processActivity (year : Nat) (srcLabel : Option String)
    (acc : JulesUsageSummary) (a : JulesActivity) : JulesUsageSummary :=
  if isInYear a.createTime year then
    let acc := { acc with totalActivities := acc.totalActivities + 1 }
    let acc :=
      match a.createTime with
      | some t => { acc with dailyActivity := bumpCount acc.dailyActivity (formatDateKey t) }
      | none => acc
    let acc :=
      { acc with activityTypeCounts := bumpCount acc.activityTypeCounts (getActivityKind a) }
    let acc := applyKindCounters acc a
    let acc :=
      { acc with
        totalTokensEstimated := acc.totalTokensEstimated
          + estimateGeminiTokensFromText a.description }
    let acc := (a.artifacts.getD []).foldl processArtifact acc
    match srcLabel with
    | some label =>
        if label = "" then acc
        else { acc with sourceCounts := bumpCount acc.sourceCounts label }
    | none => acc
  else acc

/-- The in-year session loop (automation modes, plan-approval flags, and the
title / prompt / pull-request token contributions). -/
def processInYearSession (acc : JulesUsageSummary) (s : JulesSession) : JulesUsageSummary :=
  let acc :=
    match s.automationMode with
    | some mode =>
        if mode = "" then acc
        else { acc with automationModeCounts := bumpCount acc.automationModeCounts mode }
    | none => acc
  let acc :=
    if s.requirePlanApproval.getD false then
      { acc with requirePlanApprovalCount := acc.requirePlanApprovalCount + 1 }
    else acc
  let acc :=
    { acc with
      totalTokensEstimated := acc.totalTokensEstimated
        + estimateGeminiTokensFromText s.title
        + estimateGeminiTokensFromText s.prompt }
  (s.outputs.getD []).foldl (fun acc out =>
    match out.pullRequest with
    | some pr =>
        { acc with
          totalPullRequests := acc.totalPullRequests + 1
          totalTokensEstimated := acc.totalTokensEstimated
            + estimateGeminiTokensFromText pr.title
            + estimateGeminiTokensFromText pr.description }
    | none => acc) acc

/-- `firstSessionDate`: the earliest parseable creation time over all
sessions (strictly-earlier replacement, as in the source loop). -/
def computeFirstSessionDate (sessions : List JulesSession) : Option DateTime :=
  sessions.foldl (fun first s =>
    match s.createTime with
    | none => first
    | some created =>
        match first with
        | none => some created
        | some f => if dtLt created f then some created else first) none

/-- The `sessionSource` map: for every overlapping session with a truthy
resolved label and a truthy name, `sessionSource.set(name, label)`. -/
def buildSessionSource (overlapping : List JulesSession)
    (sourceNameMap : List (String × String)) : List (String × String) :=
  overlapping.foldl (fun m s =>
    let label := resolveSourceLabel (s.sourceContext.bind SourceContext.source) sourceNameMap
    match label, s.name with
    | some lb, some nm =>
        if lb = "" ∨ nm = "" then m else setAssoc m nm lb
    | _, _ => m) []

/-- The final fill-in loop: set each recognized kind missing from the map
to zero so rendering sees a consistent kind order. -/
def ensureKinds (counts : List (ActivityKind × Nat)) : List (ActivityKind × Nat) :=
  ACTIVITY_KIND_ORDER.foldl (fun m k =>
    match getAssoc m k with
    | some _ => m
    | none => setAssoc m k 0) counts

def initialSummary : JulesUsageSummary :=
  { totalSessions := 0, totalActivities := 0, totalMessages := 0
    totalAgentMessages := 0, totalUserMessages := 0, totalPlansGenerated := 0
    totalPlansApproved := 0, totalProgressUpdates := 0, totalSessionCompleted := 0
    totalSessionFailed := 0, totalChangeSets := 0, totalBashOutputs := 0
    totalMedia := 0, totalPullRequests := 0, totalTokensEstimated := 0
    requirePlanApprovalCount := 0, firstSessionDate := none
    dailyActivity := [], activityTypeCounts := [], sourceCounts := []
    automationModeCounts := [] }

/-- `collectJulesUsageSummary`, the network abstracted away: `sessions` and
`sources` are the fetched lists and `activitiesOf` maps a session name to
its fetched activity list.  The bounded-concurrency worker pool is modelled
as the sequential fold over the overlapping sessions: every activity is
processed exactly once and all accumulator updates commute, so the shared
totals are interleaving-independent. -/
def collectJulesUsageSummary (year : Nat) (sessions : List JulesSession)
    (sources : List JulesSource) (activitiesOf : String → List JulesActivity) :
    JulesUsageSummary :=
  let sourceNameMap := buildSourceNameMap sources
  let firstSessionDate := computeFirstSessionDate sessions
  let sessionsInYear := sessions.filter (fun s => isInYear s.createTime year)
  let sessionsOverlappingYear := sessions.filter (fun s => sessionOverlapsYear s year)
  let sessionSource := buildSessionSource sessionsOverlappingYear sourceNameMap
  let acc := { initialSummary with
    totalSessions := sessionsInYear.length
    firstSessionDate := firstSessionDate }
  let acc := sessionsInYear.foldl processInYearSession acc
  let acc := sessionsOverlappingYear.foldl (fun acc s =>
    match s.name with
    | none => acc
    | some nm =>
        if nm = "" then acc
        else (activitiesOf nm).foldl (processActivity year (getAssoc sessionSource nm)) acc) acc
  { acc with activityTypeCounts := ensureKinds acc.activityTypeCounts }

/- ## Stats calculator (src/stats.ts) -/

structure RankedStat where
  id : String
  name : String
  count : Nat
  percentage : ℚ
deriving DecidableEq, Repr

/-- `buildRankedStats`: filter to positive counts, stable-sort descending by
count (JS `Array.prototype.sort` is stable; `mergeSort` is the stable sort
for the same total preorder), take the first three, then attach
percentages.  `labelOverrides` models the optional label record. -/
def buildRankedStats (map : List (String × Nat)) (total : Nat)
    (labelOverrides : String → Option String) : List RankedStat :=
  let entries :=
    ((map.filter (fun e => 0 < e.2)).mergeSort
      (fun a b => decide (b.2 ≤ a.2))).take 3
  let denominator : Nat :=
    if 0 < total then total else (entries.map Prod.snd).sum
  entries.map (fun e =>
    { id := e.1
      name := (labelOverrides e.1).getD e.1
      count := e.2
      percentage :=
        if 0 < denominator then (e.2 : ℚ) / (denominator : ℚ) * 100 else 0 })

/-- The mutable variables of the streak scan over the sorted active dates. -/
structure StreakState where
  maxStreak : Nat
  tempStreak : Nat
  tempStreakStart : Nat
  maxStreakStart : Nat
  maxStreakEnd : Nat
deriving DecidableEq, Repr

/-- One iteration of the `for (let i = 1; ...)` scan of `calculateStreaks`:
compare `activeDates[i-1]` and `activeDates[i]` and update the running and
maximal streak bookkeeping. -/
def streakStep (dates : List DateKey) (s : StreakState) (i : Nat) : StreakState :=
  let prev := dates.getD (i - 1) ⟨0, 0, 0⟩
  let curr := dates.getD i ⟨0, 0, 0⟩
  if diffDays prev curr = 1 then
    let t := s.tempStreak + 1
    if s.maxStreak < t then
      { s with maxStreak := t, tempStreak := t
               maxStreakStart := s.tempStreakStart, maxStreakEnd := i }
    else { s with tempStreak := t }
  else
    { s with tempStreak := 1, tempStreakStart := i }

/-- The `while (true)` walk of `countStreakBackwards`, one fuel unit per
loop iteration; `keys.length` fuel suffices because each successful step
consumes a distinct key of the map (see `countBack_spec` below). -/
def countBack (keys : List DateKey) (d : DateKey) : Nat → Nat
  | 0 => 0
  | fuel + 1 =>
      if prevDay d ∈ keys then countBack keys (prevDay d) fuel + 1 else 0

/-- `countStreakBackwards`: the streak starts at 1 for `startDate` itself
and counts consecutive earlier days present in the map. -/
def countStreakBackwards (keys : List DateKey) (startDate : DateKey) : Nat :=
  1 + countBack keys startDate keys.length

structure StreakResult where
  maxStreak : Nat
  currentStreak : Nat
  maxStreakDays : List DateKey
deriving DecidableEq, Repr

/-- `calculateStreaks`.  The daily-activity `Map` is its insertion-ordered
association list; `today` is `formatDateKey(new Date())`, passed explicitly
(`yesterday` is then the previous calendar day).  The max-streak `Set` is
kept as the list of days in insertion order (they are pairwise distinct). -/
def calculateStreaks (dailyActivity : List (DateKey × Nat)) (year : Nat)
    (today : DateKey) : StreakResult :=
  let activeDates :=
    ((dailyActivity.map Prod.fst).filter (fun k => decide (k.y = year))).mergeSort keyLE
  if activeDates.isEmpty then
    { maxStreak := 0, currentStreak := 0, maxStreakDays := [] }
  else
    let s := (List.range' 1 (activeDates.length - 1)).foldl (streakStep activeDates)
      { maxStreak := 1, tempStreak := 1, tempStreakStart := 0,
        maxStreakStart := 0, maxStreakEnd := 0 }
    let maxStreakDays :=
      (List.range' s.maxStreakStart (s.maxStreakEnd - s.maxStreakStart + 1)).map
        (fun i => activeDates.getD i ⟨0, 0, 0⟩)
    let keys := dailyActivity.map Prod.fst
    let yesterday := prevDay today
    let currentStreak :=
      if today ∈ keys then countStreakBackwards keys today
      else if yesterday ∈ keys then countStreakBackwards keys yesterday
      else 0
    { maxStreak := s.maxStreak, currentStreak := currentStreak,
      maxStreakDays := maxStreakDays }

/- ## C4: token estimator -/

/-- C4 counterexample: the one-space string is a non-empty string, yet the
estimator returns 0 tokens rather than the claimed
`max(1, ceil(length / 4)) = 1`, because the source tests `text.trim()`. -/
theorem C4_counterexample :
    (" " : String) ≠ "" ∧
    estimateGeminiTokensFromText (some (" ")) = 0 ∧
    max 1 (((" " : String).length + 3) / 4) = 1 := by
  refine ⟨by decide, ?_, by decide⟩
  decide

/-- C4 (amended): the estimator returns `max(1, ceil(length / 4))` for every
string that is non-blank after JS trimming, `0` for a blank-after-trim,
empty or missing string, and every media artifact contributes exactly 258
tokens regardless of size. -/
theorem C4_token_estimator :
    (∀ s : String, jsTrim s ≠ "" →
      estimateGeminiTokensFromText (some s) = max 1 ((s.length + 3) / 4) ∧
      1 ≤ estimateGeminiTokensFromText (some s)) ∧
    (∀ s : String, jsTrim s = "" → estimateGeminiTokensFromText (some s) = 0) ∧
    estimateGeminiTokensFromText none = 0 ∧
    estimateGeminiTokensFromImage = 258 := by
  refine ⟨?_, ?_, rfl, rfl⟩
  · intro s hs
    have he : estimateGeminiTokensFromText (some s) = max 1 ((s.length + 3) / 4) := by
      simp [estimateGeminiTokensFromText, GEMINI_CHARS_PER_TOKEN, hs]
    exact ⟨he, he ▸ Nat.le_max_left 1 _⟩
  · intro s hs
    simp only [estimateGeminiTokensFromText, if_pos hs]

/-- C4 witness: the five-character string "abcde" estimates to
`max(1, ceil(5/4)) = 2` tokens. -/
theorem C4_token_estimator_witness :
    estimateGeminiTokensFromText (some ("abcde")) = 2 := by
  have h := (C4_token_estimator.1 ("abcde") (by decide)).1
  simpa using h

/- ## C3: retry backoff delay -/

/-- C3: for any attempt counter and any random draw in `[0, 1]` (jitter in
`[0.85, 1.15]`), the fallback delay is `1000 · 2^attempt · jitter` clamped
to `[1000 ms, 15000 ms]` and rounded, so every retry wait lies between one
and fifteen seconds. -/
theorem C3_backoff_delay (attempt : Nat) (rand : ℚ)
    (h0 : 0 ≤ rand) (h1 : rand ≤ 1) :
    getFallbackDelayMs attempt rand
      = jsRound (min (max (1000 * 2 ^ attempt * (rand * (3 / 10) + 17 / 20)) 1000) 15000) ∧
    17 / 20 ≤ rand * (3 / 10) + 17 / 20 ∧
    rand * (3 / 10) + 17 / 20 ≤ 23 / 20 ∧
    1000 ≤ getFallbackDelayMs attempt rand ∧
    getFallbackDelayMs attempt rand ≤ 15000 := by
  refine ⟨rfl, by nlinarith, by nlinarith, ?_, ?_⟩ <;>
    simp only [getFallbackDelayMs, clampDelay, jsRound, BASE_RETRY_DELAY_MS,
      MAX_RETRY_DELAY_MS]
  · rw [Int.le_floor]
    have h1000 : (1000 : ℚ) ≤ min (max (1000 * 2 ^ attempt * (rand * (3 / 10) + 17 / 20)) 1000) 15000 := by
      rw [le_min_iff]
      constructor
      · exact le_max_right _ _
      · norm_num
    push_cast
    linarith
  · rw [← Int.lt_add_one_iff, Int.floor_lt]
    have h15000 : min (max (1000 * 2 ^ attempt * (rand * (3 / 10) + 17 / 20)) 1000) 15000 ≤ (15000 : ℚ) :=
      min_le_right _ _
    push_cast
    linarith

/-- C3 witness: at attempt 3 with the maximal draw the delay computes to
9200 ms, inside `[1000, 15000]`. -/
theorem C3_backoff_delay_witness :
    1000 ≤ getFallbackDelayMs 3 1 ∧ getFallbackDelayMs 3 1 ≤ 15000 := by
  have h := C3_backoff_delay 3 1 (by norm_num) (by norm_num)
  exact ⟨h.2.2.2.1, h.2.2.2.2⟩

/- ## C2: rate-limit adaptation -/

/-- Case analysis of one adaptation step: either the state is unchanged, or
a nonzero quota was found and the rate drops to `max 1 ⌊q·0.9⌋ <` the old
rate. -/
theorem updateRateLimitFromError_cases (st : RateLimitState)
    (body : Option (Option (List (Option ℚ)))) :
    updateRateLimitFromError st body = st ∨
    ∃ q : ℚ, q ≠ 0 ∧ max 1 ⌊q * RATE_LIMIT_BUFFER⌋ < st.rateLimitPerMinute ∧
      updateRateLimitFromError st body =
        ⟨max 1 ⌊q * RATE_LIMIT_BUFFER⌋,
          ⌈(60000 : ℚ) / ((max 1 ⌊q * RATE_LIMIT_BUFFER⌋ : Int) : ℚ)⌉⟩ := by
  unfold updateRateLimitFromError
  rcases body with _ | payload
  · exact Or.inl rfl
  · rcases hf : findQuotaLimitValue payload with _ | q
    · simp only [hf]
      exact Or.inl trivial
    · simp only [hf]
      by_cases hq : q = 0
      · simp only [if_pos hq]
        exact Or.inl trivial
      · simp only [if_neg hq]
        by_cases hlt : max 1 ⌊q * RATE_LIMIT_BUFFER⌋ < st.rateLimitPerMinute
        · refine Or.inr ⟨q, hq, hlt, ?_⟩
          simp only [if_pos hlt]
        · simp only [if_neg hlt]
          exact Or.inl trivial

/-- One adaptation never raises the permitted rate. -/
theorem updateRateLimitFromError_le (st : RateLimitState)
    (body : Option (Option (List (Option ℚ)))) :
    (updateRateLimitFromError st body).rateLimitPerMinute ≤ st.rateLimitPerMinute := by
  rcases updateRateLimitFromError_cases st body with h | ⟨q, _, hlt, h⟩
  · rw [h]
  · rw [h]
    exact le_of_lt hlt

/-- One adaptation keeps the permitted rate at least 1. -/
theorem updateRateLimitFromError_one_le (st : RateLimitState)
    (body : Option (Option (List (Option ℚ))))
    (h : 1 ≤ st.rateLimitPerMinute) :
    1 ≤ (updateRateLimitFromError st body).rateLimitPerMinute := by
  rcases updateRateLimitFromError_cases st body with he | ⟨q, _, _, he⟩
  · rw [he]; exact h
  · rw [he]; exact le_max_left 1 _

/-- Any sequence of adaptations keeps the rate within `[1, initial]`. -/
theorem updateRateLimitFromError_foldl
    (bodies : List (Option (Option (List (Option ℚ))))) :
    ∀ st : RateLimitState, 1 ≤ st.rateLimitPerMinute →
      1 ≤ (bodies.foldl updateRateLimitFromError st).rateLimitPerMinute ∧
      (bodies.foldl updateRateLimitFromError st).rateLimitPerMinute ≤ st.rateLimitPerMinute := by
  induction bodies with
  | nil => exact fun st h => ⟨h, le_refl _⟩
  | cons b rest ih =>
      intro st h
      have h1 := updateRateLimitFromError_one_le st b h
      have h2 := updateRateLimitFromError_le st b
      obtain ⟨ha, hb⟩ := ih (updateRateLimitFromError st b) h1
      exact ⟨ha, le_trans hb h2⟩

/-- A singleton nonzero-quota body steps exactly as the claim formula says. -/
theorem updateRateLimitFromError_quota (st : RateLimitState) (q : ℚ) (hq : q ≠ 0) :
    (updateRateLimitFromError st (some (some [some q]))).rateLimitPerMinute =
      if max 1 ⌊q * RATE_LIMIT_BUFFER⌋ < st.rateLimitPerMinute
      then max 1 ⌊q * RATE_LIMIT_BUFFER⌋ else st.rateLimitPerMinute := by
  have hstep : updateRateLimitFromError st (some (some [some q])) =
      if max 1 ⌊q * RATE_LIMIT_BUFFER⌋ < st.rateLimitPerMinute then
        (⟨max 1 ⌊q * RATE_LIMIT_BUFFER⌋,
          ⌈(60000 : ℚ) / ((max 1 ⌊q * RATE_LIMIT_BUFFER⌋ : Int) : ℚ)⌉⟩ : RateLimitState)
      else st := by
    show (if q = 0 then st else
      (if max 1 ⌊q * RATE_LIMIT_BUFFER⌋ < st.rateLimitPerMinute then
        (⟨max 1 ⌊q * RATE_LIMIT_BUFFER⌋,
          ⌈(60000 : ℚ) / ((max 1 ⌊q * RATE_LIMIT_BUFFER⌋ : Int) : ℚ)⌉⟩ : RateLimitState)
      else st)) = _
    rw [if_neg hq]
  rw [hstep]
  by_cases hlt : max 1 ⌊q * RATE_LIMIT_BUFFER⌋ < st.rateLimitPerMinute
  · rw [if_pos hlt, if_pos hlt]
  · rw [if_neg hlt, if_neg hlt]

/-- C2 counterexample: a 429 body reporting `quota_limit_value = 0` carries a
finite numeric quota, for which the claim demands the rate drop to
`max(1, floor(0.9·0)) = 1 < 90`, but the source ignores the falsy value and
leaves the rate at 90. -/
theorem C2_counterexample :
    findQuotaLimitValue (some [some 0]) = some 0 ∧
    (updateRateLimitFromError initRateLimitState (some (some [some 0]))).rateLimitPerMinute = 90 ∧
    max 1 ⌊(0 : ℚ) * RATE_LIMIT_BUFFER⌋ = 1 ∧ (1 : Int) < 90 := by
  refine ⟨rfl, rfl, ?_, by norm_num⟩
  norm_num [RATE_LIMIT_BUFFER]

/-- C2 (amended): for a 429 body whose first finite numeric
`quota_limit_value` is a nonzero `q`, the adaptation sets the rate to
`max(1, floor(0.9·q))` when that is below the current rate and leaves it
unchanged otherwise; every adaptation is non-increasing and, across any
sequence of adaptations from the default state, the rate stays in
`[1, 90]`; `q = 60` yields 54, and a later higher `q` (for example 100)
never raises the rate. -/
theorem C2_rate_adaptation :
    (∀ (st : RateLimitState) (q : ℚ), q ≠ 0 →
      (updateRateLimitFromError st (some (some [some q]))).rateLimitPerMinute =
        if max 1 ⌊q * RATE_LIMIT_BUFFER⌋ < st.rateLimitPerMinute
        then max 1 ⌊q * RATE_LIMIT_BUFFER⌋ else st.rateLimitPerMinute) ∧
    (∀ st body, (updateRateLimitFromError st body).rateLimitPerMinute ≤ st.rateLimitPerMinute) ∧
    (∀ bodies : List (Option (Option (List (Option ℚ)))),
      1 ≤ (bodies.foldl updateRateLimitFromError initRateLimitState).rateLimitPerMinute ∧
      (bodies.foldl updateRateLimitFromError initRateLimitState).rateLimitPerMinute ≤ 90) ∧
    (updateRateLimitFromError initRateLimitState (some (some [some 60]))).rateLimitPerMinute = 54 ∧
    (updateRateLimitFromError ⟨54, 1112⟩ (some (some [some 100]))).rateLimitPerMinute = 54 := by
  refine ⟨updateRateLimitFromError_quota, updateRateLimitFromError_le, ?_, ?_, ?_⟩
  · intro bodies
    have h90 : initRateLimitState.rateLimitPerMinute = 90 := rfl
    have h := updateRateLimitFromError_foldl bodies initRateLimitState (by rw [h90]; norm_num)
    exact ⟨h.1, h.2.trans_eq h90⟩
  · rw [updateRateLimitFromError_quota initRateLimitState 60 (by norm_num)]
    have : ⌊(60 : ℚ) * RATE_LIMIT_BUFFER⌋ = 54 := by norm_num [RATE_LIMIT_BUFFER]
    rw [this]
    rfl
  · rw [updateRateLimitFromError_quota ⟨54, 1112⟩ 100 (by norm_num)]
    have : ⌊(100 : ℚ) * RATE_LIMIT_BUFFER⌋ = 90 := by norm_num [RATE_LIMIT_BUFFER]
    rw [this]
    rfl

/-- C2 witness: applying the step characterization at the default state with
`q = 60` gives the 54 requests/minute of the spec scenario. -/
theorem C2_rate_adaptation_witness :
    (updateRateLimitFromError initRateLimitState (some (some [some 60]))).rateLimitPerMinute = 54 := by
  rw [C2_rate_adaptation.1 initRateLimitState 60 (by norm_num)]
  have : ⌊(60 : ℚ) * RATE_LIMIT_BUFFER⌋ = 54 := by norm_num [RATE_LIMIT_BUFFER]
  rw [this]
  rfl

/- ## C8: pagination -/

/-- Unfolding lemma: a page with a continuation token performs one request
and loops. -/
theorem fetchAllPages_cons_some {α : Type} (r : PageResponse α)
    (rest : List (PageResponse α)) (tok : String)
    (h : effectiveToken r = some tok) :
    fetchAllPages (r :: rest) =
      ((r.items.getD []) ++ (fetchAllPages rest).1, (fetchAllPages rest).2 + 1) := by
  show (match effectiveToken r with
    | some _ =>
        let next := fetchAllPages rest
        ((r.items.getD []) ++ next.1, next.2 + 1)
    | none => (r.items.getD [], 1)) = _
  rw [h]

/-- Unfolding lemma: a page without a continuation token is the last request. -/
theorem fetchAllPages_cons_none {α : Type} (r : PageResponse α)
    (rest : List (PageResponse α))
    (h : effectiveToken r = none) :
    fetchAllPages (r :: rest) = (r.items.getD [], 1) := by
  show (match effectiveToken r with
    | some _ =>
        let next := fetchAllPages rest
        ((r.items.getD []) ++ next.1, next.2 + 1)
    | none => (r.items.getD [], 1)) = _
  rw [h]

/-- C8: for a finite response stream in which every page except the last
carries a continuation token and the last does not, the pagination loop
returns the order-preserving concatenation of every page's items (a missing
or non-array items field contributing the empty page) and issues exactly
one request per page; and the three fetchers are this very loop. -/
theorem C8_pagination :
    (∀ (α : Type) (rs : List (PageResponse α)) (hne : rs ≠ [])
      (hmid : ∀ i (h : i + 1 < rs.length),
        (effectiveToken (rs.get ⟨i, Nat.lt_of_succ_lt h⟩)).isSome = true)
      (_ : effectiveToken (rs.getLast hne) = none),
      fetchAllPages rs = ((rs.map (fun r => r.items.getD [])).flatten, rs.length)) ∧
    (∀ ps : List (PageResponse JulesSession), listAllSessions ps = fetchAllPages ps) ∧
    (∀ ps : List (PageResponse JulesSource), listAllSources ps = fetchAllPages ps) ∧
    (∀ ps : List (PageResponse JulesActivity), listAllActivities ps = fetchAllPages ps) := by
  refine ⟨?_, fun _ => rfl, fun _ => rfl, fun _ => rfl⟩
  intro α rs
  induction rs with
  | nil => intro hne; exact absurd rfl hne
  | cons r rest ih =>
      intro hne hmid hlast
      cases rest with
      | nil =>
          have hr : effectiveToken r = none := hlast
          rw [fetchAllPages_cons_none r [] hr]
          simp
      | cons b tail =>
          have h0 : (effectiveToken r).isSome = true := hmid 0 (by simp)
          obtain ⟨tok, htok⟩ := Option.isSome_iff_exists.mp h0
          have hne' : b :: tail ≠ [] := by simp
          have hmid' : ∀ i (h : i + 1 < (b :: tail).length),
              (effectiveToken ((b :: tail).get ⟨i, Nat.lt_of_succ_lt h⟩)).isSome = true := by
            intro i h
            have h2 : (i + 1) + 1 < (r :: b :: tail).length := by
              simpa [Nat.succ_lt_succ_iff] using h
            have := hmid (i + 1) h2
            simpa using this
          have hlast' : effectiveToken ((b :: tail).getLast hne') = none := by
            have hcast : (r :: b :: tail).getLast hne = (b :: tail).getLast hne' :=
              List.getLast_cons hne'
            rw [← hcast]
            exact hlast
          have hrec := ih hne' hmid' hlast'
          rw [fetchAllPages_cons_some r (b :: tail) tok htok, hrec]
          simp

/-- The two-page response stream of spec scenario 4. -/
def c8Pages : List (PageResponse Nat) :=
  [⟨some [1, 2], some ("X")⟩, ⟨some [3], none⟩]

/-- C8 witness: a two-page stream (token "X" then no token) concatenates
both pages in order with exactly two requests, matching spec scenario 4. -/
theorem C8_pagination_witness : fetchAllPages c8Pages = ([1, 2, 3], 2) := by
  have hne : c8Pages ≠ [] := by simp [c8Pages]
  have hmid : ∀ i (h : i + 1 < c8Pages.length),
      (effectiveToken (c8Pages.get ⟨i, Nat.lt_of_succ_lt h⟩)).isSome = true := by
    intro i h
    have h2 : i + 1 < 2 := by simpa [c8Pages] using h
    have h3 : i = 0 := by omega
    subst h3
    have hget : c8Pages.get ⟨0, Nat.lt_of_succ_lt h⟩ =
        ⟨some [1, 2], some ("X")⟩ := rfl
    rw [hget]
    decide
  have hlast : effectiveToken (c8Pages.getLast hne) = none := by
    have hg : c8Pages.getLast hne = ⟨some [3], none⟩ := rfl
    rw [hg]
    rfl
  have h := C8_pagination.1 Nat c8Pages hne hmid hlast
  rw [h]
  simp [c8Pages]

/- ## C9: year windows -/

/-- The scenario-6 session: created Dec 20 of 2024, updated Jan 3 of 2025. -/
def c9Session : JulesSession :=
  { name := none, prompt := none, title := none, requirePlanApproval := none
    automationMode := none, createTime := some ⟨2024, 12, 20, 0⟩
    updateTime := some ⟨2025, 1, 3, 0⟩, sourceContext := none, outputs := none }

/-- C9 counterexample: the scenario-6 session overlaps both years and its
update time falls inside year 2025's boundaries, yet it is **not** in the
in-year set for 2025 — in-year membership looks only at the creation year,
not at "creation or update". -/
theorem C9_counterexample :
    sessionOverlapsYear c9Session 2024 = true ∧
    sessionOverlapsYear c9Session 2025 = true ∧
    dtLe (yearStart 2025) ⟨2025, 1, 3, 0⟩ = true ∧
    dtLe ⟨2025, 1, 3, 0⟩ (yearEnd 2025) = true ∧
    isInYear c9Session.createTime 2025 = false := by
  refine ⟨?_, ?_, ?_, ?_, ?_⟩ <;> decide

/-- C9 (amended): a session with a parseable creation time is in the
overlapping set for year Y iff its creation is at or before the last
millisecond of Y and its update (defaulting to creation) is at or after the
first millisecond of Y; a session without a parseable creation time never
overlaps; and in-year membership is governed by the creation time's
calendar year alone.  In particular the scenario-6 session is in the
overlapping set of both years. -/
theorem C9_year_windows (s : JulesSession) (year : Nat) :
    (∀ c : DateTime, s.createTime = some c →
      (sessionOverlapsYear s year = true ↔
        (dtLe c (yearEnd year) = true ∧
         dtLe (yearStart year) (s.updateTime.getD c) = true)) ∧
      (isInYear s.createTime year = true ↔ c.y = year)) ∧
    (s.createTime = none → sessionOverlapsYear s year = false) ∧
    sessionOverlapsYear c9Session 2024 = true ∧
    sessionOverlapsYear c9Session 2025 = true := by
  refine ⟨?_, ?_, by decide, by decide⟩
  · intro c hc
    constructor
    · rw [sessionOverlapsYear, hc]
      simp [Bool.and_eq_true]
    · rw [hc]
      simp [isInYear]
  · intro hc
    rw [sessionOverlapsYear, hc]

/-- C9 witness: the characterization applied to the scenario-6 session and
year 2024. -/
theorem C9_year_windows_witness :
    sessionOverlapsYear c9Session 2024 = true ∧
    isInYear c9Session.createTime 2024 = true := by
  have h := (C9_year_windows c9Session 2024).1 ⟨2024, 12, 20, 0⟩ rfl
  constructor
  · exact h.1.mpr (by decide)
  · exact h.2.mpr rfl

/- ## C7: top-3 rankings -/

/-- The descending-by-count comparison is transitive (as a Bool relation). -/
theorem countDesc_trans :
    ∀ a b c : String × Nat, (fun a b => decide (b.2 ≤ a.2)) a b = true →
      (fun a b => decide (b.2 ≤ a.2)) b c = true →
      (fun a b => decide (b.2 ≤ a.2)) a c = true := by
  intro a b c hab hbc
  simp only [decide_eq_true_eq] at *
  omega

/-- The descending-by-count comparison is total (as a Bool relation). -/
theorem countDesc_total :
    ∀ a b : String × Nat, ((fun a b => decide (b.2 ≤ a.2)) a b ||
      (fun a b => decide (b.2 ≤ a.2)) b a) = true := by
  intro a b
  simp only [Bool.or_eq_true, decide_eq_true_eq]
  omega

/-- C7: ranked lists keep only positive counts, are sorted descending by
count, have length at most 3, carry the claimed percentage (denominator:
the supplied total, or the displayed counts' sum when that total is 0),
preserve insertion order among equal counts (stability of the sort), and
the concrete scenario {a:10, b:10, c:5} with total 25 ranks a before b with
percentages 40, 40, 20. -/
theorem C7_rankings :
    (∀ (map : List (String × Nat)) (total : Nat) (lbl : String → Option String),
      (∀ e ∈ buildRankedStats map total lbl, 0 < e.count) ∧
      (buildRankedStats map total lbl).Pairwise (fun a b => b.count ≤ a.count) ∧
      (buildRankedStats map total lbl).length ≤ 3 ∧
      (∀ e ∈ buildRankedStats map total lbl,
        (0 < total → e.percentage = (e.count : ℚ) / (total : ℚ) * 100) ∧
        (total = 0 → e.percentage = (e.count : ℚ) /
          ((((buildRankedStats map total lbl).map RankedStat.count).sum : Nat) : ℚ) * 100))) ∧
    (∀ (map : List (String × Nat)) (p q : String × Nat),
      [p, q].Sublist (map.filter (fun e => 0 < e.2)) → q.2 ≤ p.2 →
      [p, q].Sublist ((map.filter (fun e => 0 < e.2)).mergeSort
        (fun a b => decide (b.2 ≤ a.2)))) ∧
    buildRankedStats [("a", 10), ("b", 10), ("c", 5)] 25 (fun _ => none) =
      [⟨"a", "a", 10, 40⟩, ⟨"b", "b", 10, 40⟩, ⟨"c", "c", 5, 20⟩] := by
  refine ⟨?_, ?_, ?_⟩
  · intro map total lbl
    have hmemfilter : ∀ p ∈ ((map.filter (fun e => 0 < e.2)).mergeSort
        (fun a b => decide (b.2 ≤ a.2))).take 3, 0 < p.2 := by
      intro p hp
      have h1 := List.mem_of_mem_take hp
      have h2 := (List.mergeSort_perm (map.filter (fun e => 0 < e.2)) _).mem_iff.mp h1
      have h3 := List.of_mem_filter h2
      simpa using h3
    have hpos : ∀ e ∈ buildRankedStats map total lbl, 0 < e.count := by
      intro e he
      rw [buildRankedStats] at he
      obtain ⟨p, hp, rfl⟩ := List.mem_map.mp he
      exact hmemfilter p hp
    have hsum : ((buildRankedStats map total lbl).map RankedStat.count) =
        (((map.filter (fun e => 0 < e.2)).mergeSort
          (fun a b => decide (b.2 ≤ a.2))).take 3).map Prod.snd := by
      rw [buildRankedStats, List.map_map]
      rfl
    refine ⟨hpos, ?_, ?_, ?_⟩
    · rw [buildRankedStats, List.pairwise_map]
      have hs := List.sorted_mergeSort countDesc_trans countDesc_total
        (map.filter (fun e => 0 < e.2))
      have ht := hs.sublist (List.take_sublist 3 _)
      refine ht.imp ?_
      intro a b hab
      simpa using hab
    · rw [buildRankedStats]
      simpa using List.length_take_le 3 _
    · intro e he
      rw [buildRankedStats] at he
      obtain ⟨p, hp, rfl⟩ := List.mem_map.mp he
      constructor
      · intro htp
        show (if 0 < (if 0 < total then total
            else ((((map.filter (fun e => 0 < e.2)).mergeSort
              (fun a b => decide (b.2 ≤ a.2))).take 3).map Prod.snd).sum)
          then (p.2 : ℚ) / ((if 0 < total then total
            else ((((map.filter (fun e => 0 < e.2)).mergeSort
              (fun a b => decide (b.2 ≤ a.2))).take 3).map Prod.snd).sum : Nat) : ℚ) * 100
          else 0) = (p.2 : ℚ) / (total : ℚ) * 100
        rw [if_pos htp, if_pos htp]
      · intro htz
        subst htz
        have hple : p.2 ≤ ((((map.filter (fun e => 0 < e.2)).mergeSort
            (fun a b => decide (b.2 ≤ a.2))).take 3).map Prod.snd).sum :=
          List.single_le_sum (fun x _ => Nat.zero_le x) p.2
            (List.mem_map.mpr ⟨p, hp, rfl⟩)
        have hdpos : 0 < ((((map.filter (fun e => 0 < e.2)).mergeSort
            (fun a b => decide (b.2 ≤ a.2))).take 3).map Prod.snd).sum :=
          lt_of_lt_of_le (hmemfilter p hp) hple
        rw [hsum]
        show (if 0 < (if 0 < 0 then 0
            else ((((map.filter (fun e => 0 < e.2)).mergeSort
              (fun a b => decide (b.2 ≤ a.2))).take 3).map Prod.snd).sum)
          then (p.2 : ℚ) / ((if 0 < 0 then 0
            else ((((map.filter (fun e => 0 < e.2)).mergeSort
              (fun a b => decide (b.2 ≤ a.2))).take 3).map Prod.snd).sum : Nat) : ℚ) * 100
          else 0) = _
        rw [if_neg (lt_irrefl 0), if_pos hdpos]
  · intro map p q hsub hle
    refine List.sublist_mergeSort countDesc_trans countDesc_total ?_ hsub
    refine List.pairwise_cons.mpr ⟨?_, ?_⟩
    · intro b hb
      have hbq : b = q := by simpa using hb
      subst hbq
      simpa using hle
    · simp
  · rw [buildRankedStats]
    have hfil : ([("a", 10), ("b", 10), ("c", 5)] : List (String × Nat)).filter
        (fun e => 0 < e.2) = [("a", 10), ("b", 10), ("c", 5)] := by decide
    rw [hfil]
    have hms : ([("a", 10), ("b", 10), ("c", 5)] : List (String × Nat)).mergeSort
        (fun a b => decide (b.2 ≤ a.2)) = [("a", 10), ("b", 10), ("c", 5)] := by
      simp [List.mergeSort]
    rw [hms]
    norm_num

/-- C7 witness: stability applied at the concrete equal-count pair of the
scenario, and the positive-count property at the scenario input. -/
theorem C7_rankings_witness :
    [(("a" : String), 10), (("b" : String), 10)].Sublist
      ((([("a", 10), ("b", 10), ("c", 5)] : List (String × Nat)).filter
        (fun e => 0 < e.2)).mergeSort (fun a b => decide (b.2 ≤ a.2))) ∧
    ∀ e ∈ buildRankedStats [("a", 10), ("b", 10), ("c", 5)] 25 (fun _ => none),
      0 < e.count := by
  constructor
  · exact C7_rankings.2.1 [("a", 10), ("b", 10), ("c", 5)] ("a", 10) ("b", 10)
      (by decide) (by norm_num)
  · exact fun e he =>
      ((C7_rankings.1 [("a", 10), ("b", 10), ("c", 5)] 25 (fun _ => none)).1) e he

/- ## C1 / C10: collector counter invariants -/

/-- Bumping one key raises the value sum by exactly one. -/
theorem sumValues_bumpCount [DecidableEq κ] (m : List (κ × Nat)) (k : κ) :
    sumValues (bumpCount m k) = sumValues m + 1 := by
  induction m with
  | nil => simp [bumpCount, setAssoc, getAssoc, sumValues]
  | cons hd tl ih =>
      obtain ⟨k', v'⟩ := hd
      by_cases h : k' = k
      · subst h
        simp [bumpCount, setAssoc, getAssoc, sumValues]
        omega
      · simp only [bumpCount, setAssoc, getAssoc, if_neg h, sumValues,
          List.map_cons, List.sum_cons] at ih ⊢
        omega

/-- Setting an absent key appends it. -/
theorem setAssoc_of_getAssoc_none [DecidableEq κ] (m : List (κ × β)) (k : κ) (v : β)
    (h : getAssoc m k = none) : setAssoc m k v = m ++ [(k, v)] := by
  induction m with
  | nil => rfl
  | cons hd tl ih =>
      obtain ⟨k', v'⟩ := hd
      by_cases hk : k' = k
      · rw [getAssoc, if_pos hk] at h
        exact absurd h (by simp)
      · rw [getAssoc, if_neg hk] at h
        rw [setAssoc, if_neg hk, ih h]
        rfl

/-- The fill-in of missing kinds with zeroes never changes the value sum. -/
theorem sumValues_ensureKinds (counts : List (ActivityKind × Nat)) :
    sumValues (ensureKinds counts) = sumValues counts := by
  rw [ensureKinds]
  generalize ACTIVITY_KIND_ORDER = ks
  induction ks generalizing counts with
  | nil => rfl
  | cons k rest ih =>
      rw [List.foldl_cons]
      rcases hg : getAssoc counts k with _ | v
      · simp only [hg]
        rw [ih (setAssoc counts k 0)]
        rw [setAssoc_of_getAssoc_none counts k 0 hg]
        simp [sumValues]
      · simp only [hg]
        exact ih counts

/-- The artifact loop touches only artifact counters and token totals. -/
theorem processArtifact_fields (acc : JulesUsageSummary) (art : JulesArtifact) :
    (processArtifact acc art).totalActivities = acc.totalActivities ∧
    (processArtifact acc art).totalMessages = acc.totalMessages ∧
    (processArtifact acc art).totalAgentMessages = acc.totalAgentMessages ∧
    (processArtifact acc art).totalUserMessages = acc.totalUserMessages ∧
    (processArtifact acc art).activityTypeCounts = acc.activityTypeCounts := by
  obtain ⟨cs, md, bo⟩ := art
  rcases cs with _ | cs <;> rcases md with _ | md <;> rcases bo with _ | bo <;>
    simp [processArtifact]

/-- Folding the artifact loop preserves the activity and message counters. -/
theorem foldl_processArtifact_fields (l : List JulesArtifact) :
    ∀ acc : JulesUsageSummary,
    ((l.foldl processArtifact acc).totalActivities = acc.totalActivities ∧
     (l.foldl processArtifact acc).totalMessages = acc.totalMessages ∧
     (l.foldl processArtifact acc).totalAgentMessages = acc.totalAgentMessages ∧
     (l.foldl processArtifact acc).totalUserMessages = acc.totalUserMessages ∧
     (l.foldl processArtifact acc).activityTypeCounts = acc.activityTypeCounts) := by
  induction l with
  | nil => exact fun acc => ⟨rfl, rfl, rfl, rfl, rfl⟩
  | cons art rest ih =>
      intro acc
      have h1 := processArtifact_fields acc art
      have h2 := ih (processArtifact acc art)
      simp only [List.foldl_cons]
      exact ⟨h2.1.trans h1.1, h2.2.1.trans h1.2.1, h2.2.2.1.trans h1.2.2.1,
        h2.2.2.2.1.trans h1.2.2.2.1, h2.2.2.2.2.trans h1.2.2.2.2⟩

/-- The per-kind counter step: activity count and kind histogram untouched,
message counters incremented exactly for the two message kinds. -/
theorem applyKindCounters_fields (acc : JulesUsageSummary) (a : JulesActivity) :
    (applyKindCounters acc a).totalActivities = acc.totalActivities ∧
    (applyKindCounters acc a).activityTypeCounts = acc.activityTypeCounts ∧
    (applyKindCounters acc a).totalMessages = acc.totalMessages +
      (if getActivityKind a = .agentMessaged ∨ getActivityKind a = .userMessaged
       then 1 else 0) ∧
    (applyKindCounters acc a).totalAgentMessages = acc.totalAgentMessages +
      (if getActivityKind a = .agentMessaged then 1 else 0) ∧
    (applyKindCounters acc a).totalUserMessages = acc.totalUserMessages +
      (if getActivityKind a = .userMessaged then 1 else 0) := by
  rcases hk : getActivityKind a <;> simp [applyKindCounters, hk]

theorem applyKindCounters_totalActivities (acc : JulesUsageSummary) (a : JulesActivity) :
    (applyKindCounters acc a).totalActivities = acc.totalActivities :=
  (applyKindCounters_fields acc a).1

theorem applyKindCounters_activityTypeCounts (acc : JulesUsageSummary) (a : JulesActivity) :
    (applyKindCounters acc a).activityTypeCounts = acc.activityTypeCounts :=
  (applyKindCounters_fields acc a).2.1

theorem applyKindCounters_totalMessages (acc : JulesUsageSummary) (a : JulesActivity) :
    (applyKindCounters acc a).totalMessages = acc.totalMessages +
      (if getActivityKind a = .agentMessaged ∨ getActivityKind a = .userMessaged
       then 1 else 0) :=
  (applyKindCounters_fields acc a).2.2.1

theorem applyKindCounters_totalAgentMessages (acc : JulesUsageSummary) (a : JulesActivity) :
    (applyKindCounters acc a).totalAgentMessages = acc.totalAgentMessages +
      (if getActivityKind a = .agentMessaged then 1 else 0) :=
  (applyKindCounters_fields acc a).2.2.2.1

theorem applyKindCounters_totalUserMessages (acc : JulesUsageSummary) (a : JulesActivity) :
    (applyKindCounters acc a).totalUserMessages = acc.totalUserMessages +
      (if getActivityKind a = .userMessaged then 1 else 0) :=
  (applyKindCounters_fields acc a).2.2.2.2

theorem foldl_processArtifact_totalActivities (l : List JulesArtifact) (acc : JulesUsageSummary) :
    (l.foldl processArtifact acc).totalActivities = acc.totalActivities :=
  (foldl_processArtifact_fields l acc).1

theorem foldl_processArtifact_totalMessages (l : List JulesArtifact) (acc : JulesUsageSummary) :
    (l.foldl processArtifact acc).totalMessages = acc.totalMessages :=
  (foldl_processArtifact_fields l acc).2.1

theorem foldl_processArtifact_totalAgentMessages (l : List JulesArtifact) (acc : JulesUsageSummary) :
    (l.foldl processArtifact acc).totalAgentMessages = acc.totalAgentMessages :=
  (foldl_processArtifact_fields l acc).2.2.1

theorem foldl_processArtifact_totalUserMessages (l : List JulesArtifact) (acc : JulesUsageSummary) :
    (l.foldl processArtifact acc).totalUserMessages = acc.totalUserMessages :=
  (foldl_processArtifact_fields l acc).2.2.2.1

theorem foldl_processArtifact_activityTypeCounts (l : List JulesArtifact) (acc : JulesUsageSummary) :
    (l.foldl processArtifact acc).activityTypeCounts = acc.activityTypeCounts :=
  (foldl_processArtifact_fields l acc).2.2.2.2

/-- The activity-loop body: the total goes up by one and the kind histogram
is bumped at the activity's kind exactly for in-year activities, and the
three message counters move exactly with the two message kinds. -/
theorem processActivity_fields (year : Nat) (srcLabel : Option String)
    (acc : JulesUsageSummary) (a : JulesActivity) :
    (processActivity year srcLabel acc a).totalActivities = acc.totalActivities +
      (if isInYear a.createTime year = true then 1 else 0) ∧
    (processActivity year srcLabel acc a).activityTypeCounts =
      (if isInYear a.createTime year = true
       then bumpCount acc.activityTypeCounts (getActivityKind a)
       else acc.activityTypeCounts) ∧
    (processActivity year srcLabel acc a).totalMessages = acc.totalMessages +
      (if isInYear a.createTime year = true ∧
          (getActivityKind a = .agentMessaged ∨ getActivityKind a = .userMessaged)
       then 1 else 0) ∧
    (processActivity year srcLabel acc a).totalAgentMessages = acc.totalAgentMessages +
      (if isInYear a.createTime year = true ∧ getActivityKind a = .agentMessaged
       then 1 else 0) ∧
    (processActivity year srcLabel acc a).totalUserMessages = acc.totalUserMessages +
      (if isInYear a.createTime year = true ∧ getActivityKind a = .userMessaged
       then 1 else 0) := by
  cases hin : isInYear a.createTime year
  · simp [processActivity, hin]
  · rcases hct : a.createTime with _ | t
    · rw [hct] at hin
      simp [isInYear] at hin
    · rw [hct] at hin
      rcases srcLabel with _ | label
      · simp [processActivity, hin, hct,
          foldl_processArtifact_totalActivities, foldl_processArtifact_totalMessages,
          foldl_processArtifact_totalAgentMessages, foldl_processArtifact_totalUserMessages,
          foldl_processArtifact_activityTypeCounts,
          applyKindCounters_totalActivities, applyKindCounters_activityTypeCounts,
          applyKindCounters_totalMessages, applyKindCounters_totalAgentMessages,
          applyKindCounters_totalUserMessages]
      · by_cases hl : label = "" <;>
          simp [processActivity, hin, hct, hl,
            foldl_processArtifact_totalActivities, foldl_processArtifact_totalMessages,
            foldl_processArtifact_totalAgentMessages, foldl_processArtifact_totalUserMessages,
            foldl_processArtifact_activityTypeCounts,
            applyKindCounters_totalActivities, applyKindCounters_activityTypeCounts,
            applyKindCounters_totalMessages, applyKindCounters_totalAgentMessages,
            applyKindCounters_totalUserMessages]

/-- The pull-request output loop preserves the activity and message counters. -/
theorem foldl_outputs_fields (outs : List SessionOutput) :
    ∀ acc : JulesUsageSummary,
    ((outs.foldl (fun acc out =>
        match out.pullRequest with
        | some pr =>
            { acc with
              totalPullRequests := acc.totalPullRequests + 1
              totalTokensEstimated := acc.totalTokensEstimated
                + estimateGeminiTokensFromText pr.title
                + estimateGeminiTokensFromText pr.description }
        | none => acc) acc).totalActivities = acc.totalActivities ∧
     (outs.foldl (fun acc out =>
        match out.pullRequest with
        | some pr =>
            { acc with
              totalPullRequests := acc.totalPullRequests + 1
              totalTokensEstimated := acc.totalTokensEstimated
                + estimateGeminiTokensFromText pr.title
                + estimateGeminiTokensFromText pr.description }
        | none => acc) acc).totalMessages = acc.totalMessages ∧
     (outs.foldl (fun acc out =>
        match out.pullRequest with
        | some pr =>
            { acc with
              totalPullRequests := acc.totalPullRequests + 1
              totalTokensEstimated := acc.totalTokensEstimated
                + estimateGeminiTokensFromText pr.title
                + estimateGeminiTokensFromText pr.description }
        | none => acc) acc).totalAgentMessages = acc.totalAgentMessages ∧
     (outs.foldl (fun acc out =>
        match out.pullRequest with
        | some pr =>
            { acc with
              totalPullRequests := acc.totalPullRequests + 1
              totalTokensEstimated := acc.totalTokensEstimated
                + estimateGeminiTokensFromText pr.title
                + estimateGeminiTokensFromText pr.description }
        | none => acc) acc).totalUserMessages = acc.totalUserMessages ∧
     (outs.foldl (fun acc out =>
        match out.pullRequest with
        | some pr =>
            { acc with
              totalPullRequests := acc.totalPullRequests + 1
              totalTokensEstimated := acc.totalTokensEstimated
                + estimateGeminiTokensFromText pr.title
                + estimateGeminiTokensFromText pr.description }
        | none => acc) acc).activityTypeCounts = acc.activityTypeCounts) := by
  induction outs with
  | nil => exact fun acc => ⟨rfl, rfl, rfl, rfl, rfl⟩
  | cons out rest ih =>
      intro acc
      simp only [List.foldl_cons]
      rcases hpr : out.pullRequest with _ | pr <;>
        · simp only [hpr]
          obtain ⟨h1, h2, h3, h4, h5⟩ := ih _
          exact ⟨by rw [h1], by rw [h2], by rw [h3], by rw [h4], by rw [h5]⟩

theorem foldl_outputs_totalActivities (outs : List SessionOutput) (acc : JulesUsageSummary) :
    (outs.foldl (fun acc out =>
        match out.pullRequest with
        | some pr =>
            { acc with
              totalPullRequests := acc.totalPullRequests + 1
              totalTokensEstimated := acc.totalTokensEstimated
                + estimateGeminiTokensFromText pr.title
                + estimateGeminiTokensFromText pr.description }
        | none => acc) acc).totalActivities = acc.totalActivities :=
  (foldl_outputs_fields outs acc).1

theorem foldl_outputs_totalMessages (outs : List SessionOutput) (acc : JulesUsageSummary) :
    (outs.foldl (fun acc out =>
        match out.pullRequest with
        | some pr =>
            { acc with
              totalPullRequests := acc.totalPullRequests + 1
              totalTokensEstimated := acc.totalTokensEstimated
                + estimateGeminiTokensFromText pr.title
                + estimateGeminiTokensFromText pr.description }
        | none => acc) acc).totalMessages = acc.totalMessages :=
  (foldl_outputs_fields outs acc).2.1

theorem foldl_outputs_totalAgentMessages (outs : List SessionOutput) (acc : JulesUsageSummary) :
    (outs.foldl (fun acc out =>
        match out.pullRequest with
        | some pr =>
            { acc with
              totalPullRequests := acc.totalPullRequests + 1
              totalTokensEstimated := acc.totalTokensEstimated
                + estimateGeminiTokensFromText pr.title
                + estimateGeminiTokensFromText pr.description }
        | none => acc) acc).totalAgentMessages = acc.totalAgentMessages :=
  (foldl_outputs_fields outs acc).2.2.1

theorem foldl_outputs_totalUserMessages (outs : List SessionOutput) (acc : JulesUsageSummary) :
    (outs.foldl (fun acc out =>
        match out.pullRequest with
        | some pr =>
            { acc with
              totalPullRequests := acc.totalPullRequests + 1
              totalTokensEstimated := acc.totalTokensEstimated
                + estimateGeminiTokensFromText pr.title
                + estimateGeminiTokensFromText pr.description }
        | none => acc) acc).totalUserMessages = acc.totalUserMessages :=
  (foldl_outputs_fields outs acc).2.2.2.1

theorem foldl_outputs_activityTypeCounts (outs : List SessionOutput) (acc : JulesUsageSummary) :
    (outs.foldl (fun acc out =>
        match out.pullRequest with
        | some pr =>
            { acc with
              totalPullRequests := acc.totalPullRequests + 1
              totalTokensEstimated := acc.totalTokensEstimated
                + estimateGeminiTokensFromText pr.title
                + estimateGeminiTokensFromText pr.description }
        | none => acc) acc).activityTypeCounts = acc.activityTypeCounts :=
  (foldl_outputs_fields outs acc).2.2.2.2

/-- The in-year session loop preserves the activity and message counters. -/
theorem processInYearSession_fields (acc : JulesUsageSummary) (s : JulesSession) :
    (processInYearSession acc s).totalActivities = acc.totalActivities ∧
    (processInYearSession acc s).totalMessages = acc.totalMessages ∧
    (processInYearSession acc s).totalAgentMessages = acc.totalAgentMessages ∧
    (processInYearSession acc s).totalUserMessages = acc.totalUserMessages ∧
    (processInYearSession acc s).activityTypeCounts = acc.activityTypeCounts := by
  rw [processInYearSession]
  rcases ham : s.automationMode with _ | mode
  · by_cases hrp : s.requirePlanApproval.getD false <;>
      simp [hrp, foldl_outputs_totalActivities, foldl_outputs_totalMessages,
        foldl_outputs_totalAgentMessages, foldl_outputs_totalUserMessages,
        foldl_outputs_activityTypeCounts]
  · by_cases hm : mode = "" <;>
      by_cases hrp : s.requirePlanApproval.getD false <;>
        simp [hm, hrp, foldl_outputs_totalActivities, foldl_outputs_totalMessages,
          foldl_outputs_totalAgentMessages, foldl_outputs_totalUserMessages,
          foldl_outputs_activityTypeCounts]

/-- The C1 invariant survives a single activity. -/
theorem inv1_processActivity (year : Nat) (lbl : Option String)
    (acc : JulesUsageSummary) (a : JulesActivity)
    (h : sumValues acc.activityTypeCounts = acc.totalActivities) :
    sumValues (processActivity year lbl acc a).activityTypeCounts =
      (processActivity year lbl acc a).totalActivities := by
  obtain ⟨hA, hC, _, _, _⟩ := processActivity_fields year lbl acc a
  rw [hA, hC]
  by_cases hin : isInYear a.createTime year = true
  · rw [if_pos hin, if_pos hin, sumValues_bumpCount, h]
  · rw [if_neg hin, if_neg hin, h]
    omega

/-- The C10 invariant survives a single activity. -/
theorem inv2_processActivity (year : Nat) (lbl : Option String)
    (acc : JulesUsageSummary) (a : JulesActivity)
    (h : acc.totalMessages = acc.totalAgentMessages + acc.totalUserMessages) :
    (processActivity year lbl acc a).totalMessages =
      (processActivity year lbl acc a).totalAgentMessages +
      (processActivity year lbl acc a).totalUserMessages := by
  obtain ⟨_, _, hM, hAg, hU⟩ := processActivity_fields year lbl acc a
  rw [hM, hAg, hU, h]
  by_cases hin : isInYear a.createTime year = true <;>
    rcases hk : getActivityKind a <;> simp [hin, hk] <;> omega

/-- Both invariants survive a whole activity list. -/
theorem inv_foldActivities (year : Nat) (lbl : Option String)
    (acts : List JulesActivity) :
    ∀ acc : JulesUsageSummary,
      (sumValues acc.activityTypeCounts = acc.totalActivities →
        sumValues ((acts.foldl (processActivity year lbl) acc)).activityTypeCounts =
          (acts.foldl (processActivity year lbl) acc).totalActivities) ∧
      (acc.totalMessages = acc.totalAgentMessages + acc.totalUserMessages →
        (acts.foldl (processActivity year lbl) acc).totalMessages =
          (acts.foldl (processActivity year lbl) acc).totalAgentMessages +
          (acts.foldl (processActivity year lbl) acc).totalUserMessages) := by
  induction acts with
  | nil => exact fun acc => ⟨fun h => h, fun h => h⟩
  | cons a rest ih =>
      intro acc
      simp only [List.foldl_cons]
      constructor
      · intro h
        exact (ih _).1 (inv1_processActivity year lbl acc a h)
      · intro h
        exact (ih _).2 (inv2_processActivity year lbl acc a h)

/-- Both invariants survive the per-session activity fan-out. -/
theorem inv_foldSessions (year : Nat) (sessionSource : List (String × String))
    (activitiesOf : String → List JulesActivity)
    (sessions : List JulesSession) :
    ∀ acc : JulesUsageSummary,
      (sumValues acc.activityTypeCounts = acc.totalActivities →
        sumValues ((sessions.foldl (fun acc s =>
          match s.name with
          | none => acc
          | some nm =>
              if nm = "" then acc
              else (activitiesOf nm).foldl
                (processActivity year (getAssoc sessionSource nm)) acc) acc)).activityTypeCounts =
          (sessions.foldl (fun acc s =>
          match s.name with
          | none => acc
          | some nm =>
              if nm = "" then acc
              else (activitiesOf nm).foldl
                (processActivity year (getAssoc sessionSource nm)) acc) acc).totalActivities) ∧
      (acc.totalMessages = acc.totalAgentMessages + acc.totalUserMessages →
        (sessions.foldl (fun acc s =>
          match s.name with
          | none => acc
          | some nm =>
              if nm = "" then acc
              else (activitiesOf nm).foldl
                (processActivity year (getAssoc sessionSource nm)) acc) acc).totalMessages =
          (sessions.foldl (fun acc s =>
          match s.name with
          | none => acc
          | some nm =>
              if nm = "" then acc
              else (activitiesOf nm).foldl
                (processActivity year (getAssoc sessionSource nm)) acc) acc).totalAgentMessages +
          (sessions.foldl (fun acc s =>
          match s.name with
          | none => acc
          | some nm =>
              if nm = "" then acc
              else (activitiesOf nm).foldl
                (processActivity year (getAssoc sessionSource nm)) acc) acc).totalUserMessages) := by
  induction sessions with
  | nil => exact fun acc => ⟨fun h => h, fun h => h⟩
  | cons s rest ih =>
      intro acc
      simp only [List.foldl_cons]
      have hstep : ∀ acc' : JulesUsageSummary,
          (sumValues acc'.activityTypeCounts = acc'.totalActivities →
            sumValues ((match s.name with
              | none => acc'
              | some nm =>
                  if nm = "" then acc'
                  else (activitiesOf nm).foldl
                    (processActivity year (getAssoc sessionSource nm)) acc')).activityTypeCounts =
            (match s.name with
              | none => acc'
              | some nm =>
                  if nm = "" then acc'
                  else (activitiesOf nm).foldl
                    (processActivity year (getAssoc sessionSource nm)) acc').totalActivities) ∧
          (acc'.totalMessages = acc'.totalAgentMessages + acc'.totalUserMessages →
            (match s.name with
              | none => acc'
              | some nm =>
                  if nm = "" then acc'
                  else (activitiesOf nm).foldl
                    (processActivity year (getAssoc sessionSource nm)) acc').totalMessages =
            (match s.name with
              | none => acc'
              | some nm =>
                  if nm = "" then acc'
                  else (activitiesOf nm).foldl
                    (processActivity year (getAssoc sessionSource nm)) acc').totalAgentMessages +
            (match s.name with
              | none => acc'
              | some nm =>
                  if nm = "" then acc'
                  else (activitiesOf nm).foldl
                    (processActivity year (getAssoc sessionSource nm)) acc').totalUserMessages) := by
        intro acc'
        rcases hn : s.name with _ | nm
        · exact ⟨fun h => h, fun h => h⟩
        · by_cases hnm : nm = ""
          · simp only [hnm, if_pos rfl]
            exact ⟨fun h => h, fun h => h⟩
          · simp only [if_neg hnm]
            exact ⟨(inv_foldActivities year _ (activitiesOf nm) acc').1,
              (inv_foldActivities year _ (activitiesOf nm) acc').2⟩
      constructor
      · intro h
        exact (ih _).1 ((hstep acc).1 h)
      · intro h
        exact (ih _).2 ((hstep acc).2 h)

/-- Both invariants survive the in-year session loop. -/
theorem inv_inYearFold (ss : List JulesSession) :
    ∀ acc : JulesUsageSummary,
      (sumValues acc.activityTypeCounts = acc.totalActivities →
        sumValues (ss.foldl processInYearSession acc).activityTypeCounts =
          (ss.foldl processInYearSession acc).totalActivities) ∧
      (acc.totalMessages = acc.totalAgentMessages + acc.totalUserMessages →
        (ss.foldl processInYearSession acc).totalMessages =
          (ss.foldl processInYearSession acc).totalAgentMessages +
          (ss.foldl processInYearSession acc).totalUserMessages) := by
  induction ss with
  | nil => exact fun acc => ⟨fun h => h, fun h => h⟩
  | cons s rest ih =>
      intro acc
      obtain ⟨h1, h2, h3, h4, h5⟩ := processInYearSession_fields acc s
      simp only [List.foldl_cons]
      constructor
      · intro h
        exact (ih _).1 (by rw [h1, h5, h])
      · intro h
        exact (ih _).2 (by rw [h2, h3, h4, h])

/-- C1: in every usage summary the collector produces, the per-kind
activity counts (including the zero-filled missing kinds and `unknown`)
sum to the total activity count. -/
theorem C1_kind_counts_sum_to_total (year : Nat) (sessions : List JulesSession)
    (sources : List JulesSource) (activitiesOf : String → List JulesActivity) :
    sumValues (collectJulesUsageSummary year sessions sources activitiesOf).activityTypeCounts
      = (collectJulesUsageSummary year sessions sources activitiesOf).totalActivities := by
  rw [collectJulesUsageSummary]
  simp only [sumValues_ensureKinds]
  refine (inv_foldSessions year _ activitiesOf _ _).1 ?_
  exact (inv_inYearFold _ _).1 rfl

/-- C10: in every usage summary the collector produces, `totalMessages`
equals `totalAgentMessages + totalUserMessages`, and the per-activity step
increments the message counters exactly when an in-year activity's kind is
`agentMessaged` or `userMessaged`. -/
theorem C10_message_counters (year : Nat) (sessions : List JulesSession)
    (sources : List JulesSource) (activitiesOf : String → List JulesActivity) :
    (collectJulesUsageSummary year sessions sources activitiesOf).totalMessages
      = (collectJulesUsageSummary year sessions sources activitiesOf).totalAgentMessages
      + (collectJulesUsageSummary year sessions sources activitiesOf).totalUserMessages ∧
    (∀ (lbl : Option String) (acc : JulesUsageSummary) (a : JulesActivity),
      (processActivity year lbl acc a).totalMessages = acc.totalMessages +
        (if isInYear a.createTime year = true ∧
            (getActivityKind a = .agentMessaged ∨ getActivityKind a = .userMessaged)
         then 1 else 0) ∧
      (processActivity year lbl acc a).totalAgentMessages = acc.totalAgentMessages +
        (if isInYear a.createTime year = true ∧ getActivityKind a = .agentMessaged
         then 1 else 0) ∧
      (processActivity year lbl acc a).totalUserMessages = acc.totalUserMessages +
        (if isInYear a.createTime year = true ∧ getActivityKind a = .userMessaged
         then 1 else 0)) := by
  constructor
  · rw [collectJulesUsageSummary]
    refine (inv_foldSessions year _ activitiesOf _ _).2 ?_
    exact (inv_inYearFold _ _).2 rfl
  · intro lbl acc a
    obtain ⟨_, _, hM, hAg, hU⟩ := processActivity_fields year lbl acc a
    exact ⟨hM, hAg, hU⟩

/- ## C5: maximal streak -/

/-- Invariant of the streak scan after processing pair indices `1..k`:
the recorded maximal and running streaks measure genuine runs of
consecutive calendar days. -/
def streakInv (dates : List DateKey) (k : Nat) (s : StreakState) : Prop :=
  s.maxStreakStart ≤ s.maxStreakEnd ∧ s.maxStreakEnd ≤ k ∧
  s.maxStreak = s.maxStreakEnd - s.maxStreakStart + 1 ∧
  s.tempStreakStart ≤ k ∧ s.tempStreak = k - s.tempStreakStart + 1 ∧
  (∀ j, s.maxStreakStart ≤ j → j < s.maxStreakEnd →
    diffDays (dates.getD j ⟨0, 0, 0⟩) (dates.getD (j + 1) ⟨0, 0, 0⟩) = 1) ∧
  (∀ j, s.tempStreakStart ≤ j → j < k →
    diffDays (dates.getD j ⟨0, 0, 0⟩) (dates.getD (j + 1) ⟨0, 0, 0⟩) = 1)

theorem streakInv_step (dates : List DateKey) (k : Nat) (s : StreakState)
    (h : streakInv dates k s) : streakInv dates (k + 1) (streakStep dates s (k + 1)) := by
  obtain ⟨h1, h2, h3, h4, h5, h6, h7⟩ := h
  unfold streakInv
  rw [streakStep]
  simp only [Nat.add_sub_cancel]
  by_cases hd : diffDays (dates.getD k ⟨0, 0, 0⟩) (dates.getD (k + 1) ⟨0, 0, 0⟩) = 1
  · rw [if_pos hd]
    by_cases hmax : s.maxStreak < s.tempStreak + 1
    · rw [if_pos hmax]
      dsimp only
      refine ⟨by omega, le_refl _, by omega, by omega, by omega, ?_, ?_⟩ <;>
        · intro j hj1 hj2
          rcases Nat.lt_succ_iff_lt_or_eq.mp hj2 with hj | hj
          · exact h7 j hj1 hj
          · subst hj
            exact hd
    · rw [if_neg hmax]
      dsimp only
      refine ⟨h1, by omega, h3, by omega, by omega, h6, ?_⟩
      intro j hj1 hj2
      rcases Nat.lt_succ_iff_lt_or_eq.mp hj2 with hj | hj
      · exact h7 j hj1 hj
      · subst hj
        exact hd
  · rw [if_neg hd]
    dsimp only
    exact ⟨h1, by omega, h3, le_refl _, by omega, h6, fun j hj1 hj2 => by omega⟩

theorem streakInv_fold (dates : List DateKey) (k : Nat) :
    streakInv dates k
      ((List.range' 1 k).foldl (streakStep dates) ⟨1, 1, 0, 0, 0⟩) := by
  induction k with
  | zero =>
      rw [show List.range' 1 0 = [] from rfl, List.foldl_nil]
      unfold streakInv
      dsimp only
      exact ⟨le_refl 0, le_refl 0, rfl, le_refl 0, rfl,
        fun j hj1 hj2 => by omega, fun j hj1 hj2 => by omega⟩
  | succ k ih =>
      have hr : List.range' 1 (k + 1) = List.range' 1 k ++ [1 + k] := by
        simpa using @List.range'_concat 1 1 k
      rw [hr, List.foldl_append, List.foldl_cons, List.foldl_nil]
      have hstep := streakInv_step dates k _ ih
      have he : 1 + k = k + 1 := Nat.add_comm 1 k
      rw [he]
      exact hstep

/-- A mapped arithmetic range is a `Chain'` as soon as all adjacent images
are related. -/
theorem chain'_range'_map {α : Type} (P : α → α → Prop) (f : Nat → α) :
    ∀ m a : Nat, (∀ i, i + 1 < m → P (f (a + i)) (f (a + i + 1))) →
      List.Chain' P ((List.range' a m).map f) := by
  intro m
  induction m with
  | zero => intro a _; simp
  | succ m ih =>
      intro a h
      rw [List.range'_succ, List.map_cons, List.chain'_cons']
      constructor
      · intro y hy
        cases m with
        | zero => simp at hy
        | succ m' =>
            rw [List.range'_succ, List.map_cons] at hy
            simp only [List.head?_cons, Option.mem_some_iff] at hy
            subst hy
            have h0 := h 0 (by omega)
            simpa using h0
      · refine ih (a + 1) ?_
        intro i hi
        have h2 := h (i + 1) (by omega)
        have e1 : a + (i + 1) = a + 1 + i := by omega
        rw [e1] at h2
        exact h2

/-- What the streak scan guarantees about the recorded maximal run. -/
theorem streakScan_spec (dates : List DateKey) (s : StreakState)
    (hs : s = (List.range' 1 (dates.length - 1)).foldl (streakStep dates) ⟨1, 1, 0, 0, 0⟩) :
    ((List.range' s.maxStreakStart (s.maxStreakEnd - s.maxStreakStart + 1)).map
      (fun i => dates.getD i ⟨0, 0, 0⟩)).length = s.maxStreak ∧
    List.Chain' (fun p c => diffDays p c = 1)
      ((List.range' s.maxStreakStart (s.maxStreakEnd - s.maxStreakStart + 1)).map
        (fun i => dates.getD i ⟨0, 0, 0⟩)) ∧
    (dates ≠ [] →
      ∀ dd ∈ (List.range' s.maxStreakStart (s.maxStreakEnd - s.maxStreakStart + 1)).map
        (fun i => dates.getD i ⟨0, 0, 0⟩), dd ∈ dates) := by
  have hinv := streakInv_fold dates (dates.length - 1)
  rw [← hs] at hinv
  obtain ⟨h1, h2, h3, h4, h5, h6, h7⟩ := hinv
  refine ⟨?_, ?_, ?_⟩
  · rw [List.length_map, List.length_range']
    omega
  · refine chain'_range'_map _ _ _ _ ?_
    intro i hi
    exact h6 (s.maxStreakStart + i) (by omega) (by omega)
  · intro hd dd hdd
    obtain ⟨j, hj, rfl⟩ := List.mem_map.mp hdd
    have hjr := List.mem_range'_1.mp hj
    have hlen : 0 < dates.length := List.length_pos.mpr hd
    have hjlt : j < dates.length := by omega
    rw [List.getD_eq_getElem dates _ hjlt]
    exact List.getElem_mem hjlt

/-- A run of consecutive calendar days has pairwise distinct entries. -/
theorem chain_diff_nodup (l : List DateKey)
    (h : List.Chain' (fun p c => diffDays p c = 1) l) : l.Nodup := by
  have hlt : List.Chain' (fun p c : DateKey => toDayNumber p < toDayNumber c) l :=
    h.imp (fun a b hab => by rw [diffDays] at hab; omega)
  haveI : IsTrans DateKey (fun p c : DateKey => toDayNumber p < toDayNumber c) :=
    ⟨fun _ _ _ hab hbc => lt_trans hab hbc⟩
  have hp : List.Pairwise (fun p c : DateKey => toDayNumber p < toDayNumber c) l :=
    List.chain'_iff_pairwise.mp hlt
  refine hp.imp ?_
  intro a b hab heq
  rw [heq] at hab
  exact lt_irrefl _ hab

/-- C5: for a daily-activity map with at least one key in the requested
year (and positive counts, as the collector produces), the max-streak day
set is a contiguous run of calendar days, pairwise distinct, of size
`maxStreak`, every day being a key of the map with positive count; and the
three-day scenario map yields `maxStreak = 3` with exactly those days. -/
theorem C5_max_streak (m : List (DateKey × Nat)) (year : Nat) (today : DateKey)
    (hpos : ∀ kv ∈ m, 0 < kv.2)
    (hne : (m.map Prod.fst).filter (fun k => decide (k.y = year)) ≠ []) :
    (calculateStreaks m year today).maxStreakDays.length =
      (calculateStreaks m year today).maxStreak ∧
    List.Chain' (fun p c => diffDays p c = 1)
      (calculateStreaks m year today).maxStreakDays ∧
    (calculateStreaks m year today).maxStreakDays.Nodup ∧
    (∀ dd ∈ (calculateStreaks m year today).maxStreakDays,
      ∃ c, (dd, c) ∈ m ∧ 0 < c) ∧
    (calculateStreaks [(⟨2025, 1, 1⟩, 3), (⟨2025, 1, 2⟩, 5), (⟨2025, 1, 3⟩, 2)]
      2025 ⟨2025, 6, 1⟩).maxStreak = 3 ∧
    (calculateStreaks [(⟨2025, 1, 1⟩, 3), (⟨2025, 1, 2⟩, 5), (⟨2025, 1, 3⟩, 2)]
      2025 ⟨2025, 6, 1⟩).maxStreakDays =
      [⟨2025, 1, 1⟩, ⟨2025, 1, 2⟩, ⟨2025, 1, 3⟩] := by
  have hperm := List.mergeSort_perm
    ((m.map Prod.fst).filter (fun k => decide (k.y = year))) keyLE
  set datesE := ((m.map Prod.fst).filter (fun k => decide (k.y = year))).mergeSort keyLE
    with hD
  have hdne : datesE ≠ [] := by
    intro h
    rw [h] at hperm
    exact hne hperm.symm.eq_nil
  have hgate : ¬(datesE.isEmpty = true) := by
    rw [List.isEmpty_iff]
    exact hdne
  set S := (List.range' 1 (datesE.length - 1)).foldl (streakStep datesE)
    ⟨1, 1, 0, 0, 0⟩ with hSdef
  obtain ⟨hlen, hchain, hmem⟩ := streakScan_spec datesE S hSdef
  have hdays : (calculateStreaks m year today).maxStreakDays =
      (List.range' S.maxStreakStart (S.maxStreakEnd - S.maxStreakStart + 1)).map
        (fun i => datesE.getD i ⟨0, 0, 0⟩) := by
    rw [calculateStreaks, ← hD, if_neg hgate]
  have hmax : (calculateStreaks m year today).maxStreak = S.maxStreak := by
    rw [calculateStreaks, ← hD, if_neg hgate]
  have hsc : calculateStreaks [(⟨2025, 1, 1⟩, 3), (⟨2025, 1, 2⟩, 5), (⟨2025, 1, 3⟩, 2)]
      2025 ⟨2025, 6, 1⟩ =
      ⟨3, 0, [⟨2025, 1, 1⟩, ⟨2025, 1, 2⟩, ⟨2025, 1, 3⟩]⟩ := by
    have hA : ((([(⟨2025, 1, 1⟩, 3), (⟨2025, 1, 2⟩, 5), (⟨2025, 1, 3⟩, 2)] :
        List (DateKey × Nat)).map Prod.fst).filter
          (fun k => decide (k.y = 2025))).mergeSort keyLE =
        [⟨2025, 1, 1⟩, ⟨2025, 1, 2⟩, ⟨2025, 1, 3⟩] := by
      simp [List.mergeSort, keyLE, DateKey.keyNum]
    rw [calculateStreaks, hA]
    decide
  refine ⟨?_, ?_, ?_, ?_, ?_, ?_⟩
  · rw [hdays, hmax]
    exact hlen
  · rw [hdays]
    exact hchain
  · rw [hdays]
    exact chain_diff_nodup _ hchain
  · rw [hdays]
    intro dd hdd
    have hdm := hmem hdne dd hdd
    have hfl : dd ∈ (m.map Prod.fst).filter (fun k => decide (k.y = year)) :=
      hperm.mem_iff.mp hdm
    have hmm := (List.mem_filter.mp hfl).1
    obtain ⟨⟨dk, c⟩, hkv, hfst⟩ := List.mem_map.mp hmm
    rcases hfst
    exact ⟨c, hkv, hpos _ hkv⟩
  · rw [hsc]
  · rw [hsc]

/-- C5 witness: the general statement applied at the three-day scenario
map. -/
theorem C5_max_streak_witness :
    (calculateStreaks [(⟨2025, 1, 1⟩, 3), (⟨2025, 1, 2⟩, 5), (⟨2025, 1, 3⟩, 2)]
      2025 ⟨2025, 6, 1⟩).maxStreakDays.length =
    (calculateStreaks [(⟨2025, 1, 1⟩, 3), (⟨2025, 1, 2⟩, 5), (⟨2025, 1, 3⟩, 2)]
      2025 ⟨2025, 6, 1⟩).maxStreak := by
  have h := C5_max_streak
    [(⟨2025, 1, 1⟩, 3), (⟨2025, 1, 2⟩, 5), (⟨2025, 1, 3⟩, 2)] 2025 ⟨2025, 6, 1⟩
    (by decide) (by decide)
  exact h.1

/- ## C6: current streak -/

/-- Iterated previous-calendar-day. -/
def iterPrev (d : DateKey) : Nat → DateKey
  | 0 => d
  | n + 1 => prevDay (iterPrev d n)

theorem iterPrev_succ_inner (d : DateKey) :
    ∀ n, iterPrev d (n + 1) = iterPrev (prevDay d) n := by
  intro n
  induction n with
  | zero => rfl
  | succ n ih =>
      show prevDay (iterPrev d (n + 1)) = prevDay (iterPrev (prevDay d) n)
      rw [ih]

theorem daysInMonth_le (y m : Nat) : daysInMonth y m ≤ 31 := by
  rw [daysInMonth]
  split_ifs <;> omega

/-- Stepping back one calendar day strictly decreases the key
linearization (for years at least 1). -/
theorem prevDay_keyNum_lt (k : DateKey) (hy : 1 ≤ k.y) :
    (prevDay k).keyNum < k.keyNum := by
  rw [prevDay]
  split_ifs with h1 h2
  · simp only [DateKey.keyNum]
    omega
  · have hd := daysInMonth_le k.y (k.m - 1)
    simp only [DateKey.keyNum]
    omega
  · simp only [DateKey.keyNum]
    omega

theorem countBack_le (keys : List DateKey) :
    ∀ (fuel : Nat) (d : DateKey), countBack keys d fuel ≤ fuel := by
  intro fuel
  induction fuel with
  | zero => intro d; rw [countBack]
  | succ f ih =>
      intro d
      rw [countBack]
      by_cases h : prevDay d ∈ keys
      · rw [if_pos h]
        have := ih (prevDay d)
        omega
      · rw [if_neg h]
        omega

theorem countBack_mem (keys : List DateKey) :
    ∀ (fuel : Nat) (d : DateKey) (i : Nat), 1 ≤ i → i ≤ countBack keys d fuel →
      iterPrev d i ∈ keys := by
  intro fuel
  induction fuel with
  | zero =>
      intro d i h1 h2
      rw [countBack] at h2
      omega
  | succ f ih =>
      intro d i h1 h2
      rw [countBack] at h2
      by_cases h : prevDay d ∈ keys
      · rw [if_pos h] at h2
        cases i with
        | zero => omega
        | succ j =>
            rcases Nat.eq_zero_or_pos j with hz | hp
            · subst hz
              exact h
            · rw [iterPrev_succ_inner]
              exact ih (prevDay d) j hp (by omega)
      · rw [if_neg h] at h2
        omega

theorem countBack_stop (keys : List DateKey) :
    ∀ (fuel : Nat) (d : DateKey), countBack keys d fuel < fuel →
      iterPrev d (countBack keys d fuel + 1) ∉ keys := by
  intro fuel
  induction fuel with
  | zero =>
      intro d h
      rw [countBack] at h
      omega
  | succ f ih =>
      intro d h
      rw [countBack] at h ⊢
      by_cases hp : prevDay d ∈ keys
      · rw [if_pos hp] at h ⊢
        rw [iterPrev_succ_inner]
        exact ih (prevDay d) (by omega)
      · rw [if_neg hp] at h ⊢
        show iterPrev d 1 ∉ keys
        intro hc
        exact hp hc

/-- Along a backward walk whose visited days all lie in `keys` (and so have
year at least 1), the key linearization strictly decreases. -/
theorem iterPrev_keyNum_strict (keys : List DateKey)
    (hy : ∀ k ∈ keys, 1 ≤ k.y) (start : DateKey) (c : Nat)
    (hstart : start ∈ keys)
    (hmem : ∀ i, 1 ≤ i → i ≤ c → iterPrev start i ∈ keys) :
    ∀ i j, i < j → j ≤ c + 1 →
      (iterPrev start j).keyNum < (iterPrev start i).keyNum := by
  have hstep : ∀ j, j ≤ c →
      (iterPrev start (j + 1)).keyNum < (iterPrev start j).keyNum := by
    intro j hj
    have hyj : 1 ≤ (iterPrev start j).y := by
      rcases Nat.eq_zero_or_pos j with hz | hp
      · subst hz
        exact hy start hstart
      · exact hy _ (hmem j hp hj)
    exact prevDay_keyNum_lt (iterPrev start j) hyj
  intro i j
  induction j with
  | zero => omega
  | succ j ihj =>
      intro hij hjc
      rcases Nat.lt_succ_iff_lt_or_eq.mp hij with hij' | hij'
      · exact lt_trans (hstep j (by omega)) (ihj hij' (by omega))
      · subst hij'
        exact hstep i (by omega)

/-- The fuelled backward walk with `keys.length` fuel stops exactly at the
first missing day: the day after the counted run is never a key. -/
theorem countStreak_stop (keys : List DateKey) (hnd : keys.Nodup)
    (hy : ∀ k ∈ keys, 1 ≤ k.y) (start : DateKey) (hstart : start ∈ keys) :
    iterPrev start (countBack keys start keys.length + 1) ∉ keys := by
  have hcle := countBack_le keys keys.length start
  rcases lt_or_eq_of_le hcle with hlt | heq
  · exact countBack_stop keys keys.length start hlt
  · intro hmem
    have hmemall : ∀ i, 1 ≤ i → i ≤ countBack keys start keys.length →
        iterPrev start i ∈ keys :=
      fun i h1 h2 => countBack_mem keys keys.length start i h1 h2
    have hstrict := iterPrev_keyNum_strict keys hy start
      (countBack keys start keys.length) hstart hmemall
    have hLnd : ((List.range (countBack keys start keys.length)).map
        (fun i => iterPrev start (i + 1))).Nodup := by
      refine List.pairwise_map.mpr ?_
      refine (List.pairwise_lt_range _).imp_of_mem ?_
      intro a b ha hb hab
      have hb' := List.mem_range.mp hb
      have hne := hstrict (a + 1) (b + 1) (by omega) (by omega)
      intro he
      rw [he] at hne
      exact lt_irrefl _ hne
    have hLsub : ((List.range (countBack keys start keys.length)).map
        (fun i => iterPrev start (i + 1))) ⊆ keys := by
      intro x hx
      obtain ⟨i, hi, rfl⟩ := List.mem_map.mp hx
      have hi' := List.mem_range.mp hi
      exact hmemall (i + 1) (by omega) (by omega)
    have hLperm : ((List.range (countBack keys start keys.length)).map
        (fun i => iterPrev start (i + 1))).Perm keys := by
      refine (List.subperm_of_subset hLnd hLsub).perm_of_length_le ?_
      simp [heq]
    have hinL := hLperm.mem_iff.mpr hmem
    obtain ⟨i, hi, hieq⟩ := List.mem_map.mp hinL
    have hi' := List.mem_range.mp hi
    have hne := hstrict (i + 1) (countBack keys start keys.length + 1)
      (by omega) (by omega)
    rw [hieq] at hne
    exact lt_irrefl _ hne

/-- The backward streak count is exactly the number of consecutive active
days ending at `startDate`: every day it counts is a key, and the next
older day is not. -/
theorem countStreakBackwards_spec (keys : List DateKey) (hnd : keys.Nodup)
    (hy : ∀ k ∈ keys, 1 ≤ k.y) (start : DateKey) (hstart : start ∈ keys) :
    (∀ i < countStreakBackwards keys start, iterPrev start i ∈ keys) ∧
    iterPrev start (countStreakBackwards keys start) ∉ keys := by
  constructor
  · intro i hi
    cases i with
    | zero => exact hstart
    | succ j =>
        rw [countStreakBackwards] at hi
        exact countBack_mem keys keys.length start (j + 1) (by omega) (by omega)
  · rw [countStreakBackwards, Nat.add_comm]
    exact countStreak_stop keys hnd hy start hstart

/-- C6 counterexample: when no key of the map lies in the requested year,
`calculateStreaks` returns early with `currentStreak = 0` even though
today's key is present and the backward walk from it counts 1 day — the
claim as stated predicts 1. -/
theorem C6_counterexample :
    (⟨2024, 12, 31⟩ : DateKey) ∈
      ([(⟨2024, 12, 31⟩, 1)] : List (DateKey × Nat)).map Prod.fst ∧
    countStreakBackwards ([⟨2024, 12, 31⟩] : List DateKey) ⟨2024, 12, 31⟩ = 1 ∧
    (calculateStreaks [(⟨2024, 12, 31⟩, 1)] 2025 ⟨2024, 12, 31⟩).currentStreak = 0 := by
  refine ⟨by decide, by decide, ?_⟩
  have hA : ((([(⟨2024, 12, 31⟩, 1)] : List (DateKey × Nat)).map Prod.fst).filter
      (fun k => decide (k.y = 2025))).mergeSort keyLE = [] := by
    simp [List.mergeSort]
  rw [calculateStreaks, hA]
  decide

/-- C6 (amended): provided at least one key of the daily-activity map lies
in the requested year, `currentStreak` is exactly the backward count of
consecutive active days from today when today is a key, else from
yesterday when yesterday is a key, else 0 — characterized by: every walked
day is a key and the next older day is not.  The recency cutoff is real (a
five-day streak ended two days before today yields `currentStreak = 0`
with `maxStreak = 5`), and `maxStreak ≥ currentStreak` is not a
consequence (a cross-year run yields `maxStreak = 1 < currentStreak = 3`). -/
theorem C6_current_streak (m : List (DateKey × Nat)) (year : Nat) (today : DateKey)
    (hnd : (m.map Prod.fst).Nodup)
    (hy : ∀ k ∈ m.map Prod.fst, 1 ≤ k.y)
    (hne : (m.map Prod.fst).filter (fun k => decide (k.y = year)) ≠ []) :
    (today ∈ m.map Prod.fst →
      1 ≤ (calculateStreaks m year today).currentStreak ∧
      (∀ i < (calculateStreaks m year today).currentStreak,
        iterPrev today i ∈ m.map Prod.fst) ∧
      iterPrev today (calculateStreaks m year today).currentStreak ∉ m.map Prod.fst) ∧
    (today ∉ m.map Prod.fst → prevDay today ∈ m.map Prod.fst →
      1 ≤ (calculateStreaks m year today).currentStreak ∧
      (∀ i < (calculateStreaks m year today).currentStreak,
        iterPrev (prevDay today) i ∈ m.map Prod.fst) ∧
      iterPrev (prevDay today) (calculateStreaks m year today).currentStreak ∉
        m.map Prod.fst) ∧
    (today ∉ m.map Prod.fst → prevDay today ∉ m.map Prod.fst →
      (calculateStreaks m year today).currentStreak = 0) ∧
    (calculateStreaks [(⟨2025, 1, 1⟩, 1), (⟨2025, 1, 2⟩, 1), (⟨2025, 1, 3⟩, 1),
      (⟨2025, 1, 4⟩, 1), (⟨2025, 1, 5⟩, 1)] 2025 ⟨2025, 1, 7⟩).currentStreak = 0 ∧
    (calculateStreaks [(⟨2025, 1, 1⟩, 1), (⟨2025, 1, 2⟩, 1), (⟨2025, 1, 3⟩, 1),
      (⟨2025, 1, 4⟩, 1), (⟨2025, 1, 5⟩, 1)] 2025 ⟨2025, 1, 7⟩).maxStreak = 5 ∧
    (calculateStreaks [(⟨2024, 12, 30⟩, 1), (⟨2024, 12, 31⟩, 1), (⟨2025, 1, 1⟩, 1)]
      2025 ⟨2025, 1, 1⟩).maxStreak = 1 ∧
    (calculateStreaks [(⟨2024, 12, 30⟩, 1), (⟨2024, 12, 31⟩, 1), (⟨2025, 1, 1⟩, 1)]
      2025 ⟨2025, 1, 1⟩).currentStreak = 3 := by
  have hperm := List.mergeSort_perm
    ((m.map Prod.fst).filter (fun k => decide (k.y = year))) keyLE
  set datesE := ((m.map Prod.fst).filter (fun k => decide (k.y = year))).mergeSort keyLE
    with hD
  have hdne : datesE ≠ [] := by
    intro h
    rw [h] at hperm
    exact hne hperm.symm.eq_nil
  have hgate : ¬(datesE.isEmpty = true) := by
    rw [List.isEmpty_iff]
    exact hdne
  have hcur : (calculateStreaks m year today).currentStreak =
      (if today ∈ m.map Prod.fst then countStreakBackwards (m.map Prod.fst) today
       else if prevDay today ∈ m.map Prod.fst then
         countStreakBackwards (m.map Prod.fst) (prevDay today)
       else 0) := by
    rw [calculateStreaks, ← hD, if_neg hgate]
  have h5 : calculateStreaks [(⟨2025, 1, 1⟩, 1), (⟨2025, 1, 2⟩, 1), (⟨2025, 1, 3⟩, 1),
      (⟨2025, 1, 4⟩, 1), (⟨2025, 1, 5⟩, 1)] 2025 ⟨2025, 1, 7⟩ =
      ⟨5, 0, [⟨2025, 1, 1⟩, ⟨2025, 1, 2⟩, ⟨2025, 1, 3⟩, ⟨2025, 1, 4⟩, ⟨2025, 1, 5⟩]⟩ := by
    have hA : ((([(⟨2025, 1, 1⟩, 1), (⟨2025, 1, 2⟩, 1), (⟨2025, 1, 3⟩, 1),
        (⟨2025, 1, 4⟩, 1), (⟨2025, 1, 5⟩, 1)] : List (DateKey × Nat)).map
          Prod.fst).filter (fun k => decide (k.y = 2025))).mergeSort keyLE =
        [⟨2025, 1, 1⟩, ⟨2025, 1, 2⟩, ⟨2025, 1, 3⟩, ⟨2025, 1, 4⟩, ⟨2025, 1, 5⟩] := by
      simp [List.mergeSort, keyLE, DateKey.keyNum]
    rw [calculateStreaks, hA]
    decide
  have hX : calculateStreaks [(⟨2024, 12, 30⟩, 1), (⟨2024, 12, 31⟩, 1), (⟨2025, 1, 1⟩, 1)]
      2025 ⟨2025, 1, 1⟩ = ⟨1, 3, [⟨2025, 1, 1⟩]⟩ := by
    have hA : ((([(⟨2024, 12, 30⟩, 1), (⟨2024, 12, 31⟩, 1), (⟨2025, 1, 1⟩, 1)] :
        List (DateKey × Nat)).map Prod.fst).filter
          (fun k => decide (k.y = 2025))).mergeSort keyLE = [⟨2025, 1, 1⟩] := by
      simp [List.mergeSort]
    rw [calculateStreaks, hA]
    decide
  refine ⟨?_, ?_, ?_, by rw [h5], by rw [h5], by rw [hX], by rw [hX]⟩
  · intro ht
    rw [hcur, if_pos ht]
    obtain ⟨hmem, hstop⟩ := countStreakBackwards_spec (m.map Prod.fst) hnd hy today ht
    refine ⟨by rw [countStreakBackwards]; omega, hmem, hstop⟩
  · intro ht hyd
    rw [hcur, if_neg ht, if_pos hyd]
    obtain ⟨hmem, hstop⟩ :=
      countStreakBackwards_spec (m.map Prod.fst) hnd hy (prevDay today) hyd
    refine ⟨by rw [countStreakBackwards]; omega, hmem, hstop⟩
  · intro ht hyd
    rw [hcur, if_neg ht, if_neg hyd]

/-- C6 witness: the characterization applied to a one-day map whose single
key is today. -/
theorem C6_current_streak_witness :
    1 ≤ (calculateStreaks [(⟨2025, 1, 1⟩, 1)] 2025 ⟨2025, 1, 1⟩).currentStreak ∧
    iterPrev ⟨2025, 1, 1⟩
      (calculateStreaks [(⟨2025, 1, 1⟩, 1)] 2025 ⟨2025, 1, 1⟩).currentStreak ∉
      ([(⟨2025, 1, 1⟩, 1)] : List (DateKey × Nat)).map Prod.fst := by
  have h := (C6_current_streak [(⟨2025, 1, 1⟩, 1)] 2025 ⟨2025, 1, 1⟩
    (by decide) (by decide) (by decide)).1 (by decide)
  exact ⟨h.1, h.2.2⟩
